import Mathlib

/-! RowBuilder: the typed row encoder of the VoltDB C++ client

A shallow embedding of `include/RowBuilder.h`. The class keeps a column list
`m_columns`, a byte buffer `m_buffer` and a cursor `m_currentColumn`; every
`add*` call checks the wire type of the column under the cursor, appends the
encoded value to the buffer and moves the cursor on.

The headers the class includes (`WireType.h`, `Column.hpp`, `Exception.hpp`,
`ByteBuffer.hpp`) are not part of the source at hand; what the embedding needs
of them is modelled from the specification and marked as such.
-/

namespace voltdb

/-! ## Collaborators -/

/-- One octet of the sink. -/
abbrev Byte := Fin 256

/-- Modelled from the spec: `WireType.h` is missing. The seven column types of
the data model, and `undefinedTag` for every other tag a column could carry
(the spec's "undefined type tag", the `default:` branch of `addNull`). -/
inductive WireType where
  | WIRE_TYPE_TINYINT
  | WIRE_TYPE_SMALLINT
  | WIRE_TYPE_INTEGER
  | WIRE_TYPE_BIGINT
  | WIRE_TYPE_FLOAT
  | WIRE_TYPE_STRING
  | WIRE_TYPE_VARBINARY
  | undefinedTag (tag : Nat)
  deriving DecidableEq, Repr

open WireType

/-- Modelled from the spec: `Column.hpp` is missing. Of a column the encoder
reads only its wire type, `m_columns[i].m_type`. -/
structure Column where
  m_type : WireType
  deriving DecidableEq, Repr

/-- Modelled from the spec: `Exception.hpp` is missing. The outcome value the
caller passes by reference to every call: no error, or one of the three error
kinds of the spec (section 7). Only `errColumnMismatchException` is named by the
source. -/
inductive errType where
  | errOk
  | errColumnMismatchException
  | errValueTooLarge
  | errBufferAllocationFailure
  deriving DecidableEq, Repr

open errType

/-- Modelled from the spec: `isOk` of the missing `Exception.hpp`; true when no
error is recorded. -/
def isOk (err : errType) : Bool :=
  match err with
  | errOk => true
  | _ => false

/-- Modelled from the spec: `setErr` of the missing `Exception.hpp`; records the
error `e` in the caller's outcome variable. -/
def setErr (_err : errType) (e : errType) : errType := e

/-- The unsigned value of the low `bits` bits of `v`: the two's complement
representation of a signed machine integer. -/
def toUnsigned (bits : Nat) (v : Int) : Nat := (v % (2 : Int) ^ bits).toNat

/-- The signed value of a `bits`-bit two's complement pattern `u`. -/
def toSigned (bits : Nat) (u : Nat) : Int :=
  if u % 2 ^ bits < 2 ^ (bits - 1) then ((u % 2 ^ bits : Nat) : Int)
  else ((u % 2 ^ bits : Nat) : Int) - (2 : Int) ^ bits

/-- The conversion `static_cast<int32_t>(n)` of a size. -/
def toInt32 (n : Nat) : Int := toSigned 32 n

/-- Octet number `k` of `u`, octet 0 being the least significant. -/
def octet (u k : Nat) : Byte := ⟨(u / 256 ^ k) % 256, Nat.mod_lt _ (by decide)⟩

/-- The `width` low-order octets of `u`, most significant first. -/
def beBytes : Nat → Nat → List Byte
  | 0, _ => []
  | w + 1, u => octet u w :: beBytes w u

/-- The number a list of octets denotes when read most significant first. -/
def beValue (bs : List Byte) : Nat := bs.foldl (fun acc b => acc * 256 + b.val) 0

def INT8_MIN : Int := -128
def INT16_MIN : Int := -32768
def INT32_MIN : Int := -2147483648
def INT64_MIN : Int := -9223372036854775808

/-- A `double`, carried as its 64-bit IEEE-754 binary64 pattern: the encoder
only moves the pattern into the sink and does no arithmetic on it. -/
abbrev Double := Nat

/-- The pattern of the literal `-1.7976931348623157E+308` of `addNull`: sign 1,
exponent field `0x7FE`, all 52 fraction bits set, which is `-(2^53 - 1) * 2^971`,
the most negative finite binary64. -/
def NULL_DOUBLE : Double := 0xFFEFFFFFFFFFFFFF

/-- How a call ends. It returns (`done`); it reads `m_columns` out of range and
traps (`outOfRange`); it runs into `assert(false)` (`assertFailed`); it adds two
`int` values whose sum no `int` holds, which C++ leaves undefined
(`signedOverflow`); or it asks the sink for a write that it had not made the
sink reserve room for (`unreservedWrite`): neither the source nor the spec says
what the sink does then, and the model says no more than that the call got
there. -/
inductive Outcome (α : Type) where
  | done (a : α)
  | outOfRange
  | assertFailed
  | signedOverflow
  | unreservedWrite
  deriving DecidableEq, Repr

/-- Sequencing of calls: the first abnormal end is the end of the sequence. -/
def Outcome.andThen {α β : Type} (o : Outcome α) (f : α → Outcome β) : Outcome β :=
  match o with
  | .done a => f a
  | .outOfRange => .outOfRange
  | .assertFailed => .assertFailed
  | .signedOverflow => .signedOverflow
  | .unreservedWrite => .unreservedWrite

/-- The sum `x + y` computed in `int` (32 bits): the sum itself when an `int`
holds it, signed overflow otherwise. -/
def intAdd (x y : Int) : Outcome Int :=
  if x + y < -2147483648 ∨ 2147483647 < x + y then .signedOverflow else .done (x + y)

/-- Modelled from the spec: `ByteBuffer.hpp` is missing. The sink is the sequence
of octets written so far. Capacity and allocation are outside the model: the
spec lets the sink fail only on allocation exhaustion, so a write that the
preceding `ensureRemaining` covers always has room. -/
structure ScopedByteBuffer where
  bytes : List Byte
  deriving DecidableEq, Repr

namespace ScopedByteBuffer

/-- Modelled from the spec: `ensureRemaining(n)` reserves room for `n` more
octets; the octets written so far are untouched. -/
def ensureRemaining (buf : ScopedByteBuffer) (_remaining : Int) : ScopedByteBuffer := buf

/-- Modelled from the spec: raw writer of `width` octets, big-endian; the
outcome variable is left as it was found. -/
def putFixed (buf : ScopedByteBuffer) (err : errType) (width : Nat) (u : Nat) :
    ScopedByteBuffer × errType :=
  ({ bytes := buf.bytes ++ beBytes width u }, err)

/-- Modelled from the spec: `putInt8`, one octet, two's complement. -/
def putInt8 (buf : ScopedByteBuffer) (err : errType) (val : Int) : ScopedByteBuffer × errType :=
  buf.putFixed err 1 (toUnsigned 8 val)

/-- Modelled from the spec: `putInt16`, two octets big-endian, two's complement. -/
def putInt16 (buf : ScopedByteBuffer) (err : errType) (val : Int) : ScopedByteBuffer × errType :=
  buf.putFixed err 2 (toUnsigned 16 val)

/-- Modelled from the spec: `putInt32`, four octets big-endian, two's complement. -/
def putInt32 (buf : ScopedByteBuffer) (err : errType) (val : Int) : ScopedByteBuffer × errType :=
  buf.putFixed err 4 (toUnsigned 32 val)

/-- Modelled from the spec: `putInt64`, eight octets big-endian, two's complement. -/
def putInt64 (buf : ScopedByteBuffer) (err : errType) (val : Int) : ScopedByteBuffer × errType :=
  buf.putFixed err 8 (toUnsigned 64 val)

/-- Modelled from the spec: `putDouble`, the eight octets of the binary64
pattern, big-endian. -/
def putDouble (buf : ScopedByteBuffer) (err : errType) (val : Double) :
    ScopedByteBuffer × errType :=
  buf.putFixed err 8 val

/-- Modelled from the spec: `putString` on a sink that was last asked, by
`ensureRemaining(reserved)`, to hold `reserved` more octets. The field is the
four length octets and the payload. Where the reservation covers the field,
the sink writes a four-octet signed length equal to the payload's byte length,
then the payload verbatim. Where it does not, or where the field is longer than
any `int32_t` reservation, the write is unreserved. -/
def putString (buf : ScopedByteBuffer) (reserved : Int) (err : errType) (value : List Byte) :
    Outcome (ScopedByteBuffer × errType) :=
  if reserved < 4 + (value.length : Int) ∨ 2147483647 < 4 + (value.length : Int) then
    .unreservedWrite
  else
    let r := buf.putInt32 err (toInt32 value.length)
    .done ({ bytes := r.1.bytes ++ value }, r.2)

/-- Modelled from the spec: `putBytes` on a sink that was last asked, by
`ensureRemaining(reserved)`, to hold `reserved` more octets. The field is the
four length octets and `bufsize` payload octets. Where the reservation covers
the field, the sink writes the four-octet signed length `bufsize`, then the
first `bufsize` octets found at `in_value`. Where it does not (a negative
`bufsize` leaves less than the four length octets reserved), or where the field
is longer than any `int32_t` reservation, the write is unreserved. -/
def putBytes (buf : ScopedByteBuffer) (reserved : Int) (err : errType) (bufsize : Int)
    (in_value : List Byte) : Outcome (ScopedByteBuffer × errType) :=
  if reserved < 4 + (bufsize.toNat : Int) ∨ 2147483647 < 4 + (bufsize.toNat : Int) ∨
      bufsize < 0 then
    .unreservedWrite
  else
    let r := buf.putInt32 err bufsize
    .done ({ bytes := r.1.bytes ++ in_value.take bufsize.toNat }, r.2)

/-- Modelled from the spec: `clear()` truncates the sink to empty. -/
def clear (_buf : ScopedByteBuffer) : ScopedByteBuffer := { bytes := [] }

end ScopedByteBuffer

/-! ## The encoder -/

/-- The members of `RowBuilder`. `m_currentColumn` is a `uint32_t`; it is kept
as a natural number, which is exact for every schema of fewer than `2^32`
columns. -/
structure RowBuilder where
  m_columns : List Column
  m_buffer : ScopedByteBuffer
  m_currentColumn : Nat
  deriving DecidableEq, Repr

/-- What a read of `m_columns[i]` with `i` not below `m_columns.size()` finds.
`std::vector::operator[]` does not check its index, so the C++ leaves the read
undefined: `none` stands for an access that traps, `some t` for a stale element
of wire type `t` lying behind the vector's last element. -/
abbrev PastEnd := Nat → Option WireType

namespace RowBuilder

/-- Modelled from the spec: the constructor `RowBuilder(Table*)` is only declared
in the header. It binds the schema, sets the cursor to 0 and starts with an
empty sink. -/
def fresh (schema : List Column) : RowBuilder :=
  { m_columns := schema, m_buffer := { bytes := [] }, m_currentColumn := 0 }

/-- The expression `m_columns[m_currentColumn].m_type`. -/
def currentType (mem : PastEnd) (b : RowBuilder) : Outcome WireType :=
  match b.m_columns[b.m_currentColumn]? with
  | some c => .done c.m_type
  | none =>
    match mem b.m_currentColumn with
    | some t => .done t
    | none => .outOfRange

/-- `validateType`, lines 38-43: the element is read first, the comparison of the
cursor with the column count (strictly greater) comes second. -/
def validateType (mem : PastEnd) (b : RowBuilder) (err : errType) (type : WireType) :
    Outcome errType :=
  (b.currentType mem).andThen fun t =>
    if t ≠ type ∨ b.m_currentColumn > b.m_columns.length then
      .done (setErr err errColumnMismatchException)
    else
      .done err

/-- `addInt64`, lines 47-58. -/
def addInt64 (mem : PastEnd) (b : RowBuilder) (err : errType) (val : Int) :
    Outcome (RowBuilder × errType) :=
  (b.validateType mem err WIRE_TYPE_BIGINT).andThen fun err =>
    if !isOk err then .done (b, err) else
    let r := (b.m_buffer.ensureRemaining 8).putInt64 err val
    if !isOk r.2 then .done ({ b with m_buffer := r.1 }, r.2) else
    .done ({ b with m_buffer := r.1, m_currentColumn := b.m_currentColumn + 1 }, r.2)

/-- `addInt32`, lines 59-70. -/
def addInt32 (mem : PastEnd) (b : RowBuilder) (err : errType) (val : Int) :
    Outcome (RowBuilder × errType) :=
  (b.validateType mem err WIRE_TYPE_INTEGER).andThen fun err =>
    if !isOk err then .done (b, err) else
    let r := (b.m_buffer.ensureRemaining 4).putInt32 err val
    if !isOk r.2 then .done ({ b with m_buffer := r.1 }, r.2) else
    .done ({ b with m_buffer := r.1, m_currentColumn := b.m_currentColumn + 1 }, r.2)

/-- `addInt16`, lines 71-82. -/
def addInt16 (mem : PastEnd) (b : RowBuilder) (err : errType) (val : Int) :
    Outcome (RowBuilder × errType) :=
  (b.validateType mem err WIRE_TYPE_SMALLINT).andThen fun err =>
    if !isOk err then .done (b, err) else
    let r := (b.m_buffer.ensureRemaining 2).putInt16 err val
    if !isOk r.2 then .done ({ b with m_buffer := r.1 }, r.2) else
    .done ({ b with m_buffer := r.1, m_currentColumn := b.m_currentColumn + 1 }, r.2)

/-- `addInt8`, lines 83-94. -/
def addInt8 (mem : PastEnd) (b : RowBuilder) (err : errType) (val : Int) :
    Outcome (RowBuilder × errType) :=
  (b.validateType mem err WIRE_TYPE_TINYINT).andThen fun err =>
    if !isOk err then .done (b, err) else
    let r := (b.m_buffer.ensureRemaining 1).putInt8 err val
    if !isOk r.2 then .done ({ b with m_buffer := r.1 }, r.2) else
    .done ({ b with m_buffer := r.1, m_currentColumn := b.m_currentColumn + 1 }, r.2)

/-- `addDouble`, lines 95-106. -/
def addDouble (mem : PastEnd) (b : RowBuilder) (err : errType) (val : Double) :
    Outcome (RowBuilder × errType) :=
  (b.validateType mem err WIRE_TYPE_FLOAT).andThen fun err =>
    if !isOk err then .done (b, err) else
    let r := (b.m_buffer.ensureRemaining 8).putDouble err val
    if !isOk r.2 then .done ({ b with m_buffer := r.1 }, r.2) else
    .done ({ b with m_buffer := r.1, m_currentColumn := b.m_currentColumn + 1 }, r.2)

/-- `addNull`, lines 107-141. The guard rejects a cursor strictly greater than
the column count; the two variable-length cases advance the cursor without
looking at the outcome of the write. -/
def addNull (mem : PastEnd) (b : RowBuilder) (err : errType) :
    Outcome (RowBuilder × errType) :=
  if b.m_currentColumn > b.m_columns.length then
    .done (b, setErr err errColumnMismatchException)
  else
    (b.currentType mem).andThen fun t =>
      match t with
      | WIRE_TYPE_BIGINT => b.addInt64 mem err INT64_MIN
      | WIRE_TYPE_INTEGER => b.addInt32 mem err INT32_MIN
      | WIRE_TYPE_SMALLINT => b.addInt16 mem err INT16_MIN
      | WIRE_TYPE_TINYINT => b.addInt8 mem err INT8_MIN
      | WIRE_TYPE_FLOAT => b.addDouble mem err NULL_DOUBLE
      | WIRE_TYPE_STRING =>
        let r := (b.m_buffer.ensureRemaining 4).putInt32 err (-1)
        .done ({ b with m_buffer := r.1, m_currentColumn := b.m_currentColumn + 1 }, r.2)
      | WIRE_TYPE_VARBINARY =>
        let r := (b.m_buffer.ensureRemaining 4).putInt32 err (-1)
        .done ({ b with m_buffer := r.1, m_currentColumn := b.m_currentColumn + 1 }, r.2)
      | undefinedTag _ => .assertFailed

/-- `addString`, lines 142-153. The reservation is the `int` sum
`4 + static_cast<int32_t>(val.size())`: it overflows for a size within four of
`2^31`, and from `2^31` on the cast size is no longer the size. -/
def addString (mem : PastEnd) (b : RowBuilder) (err : errType) (val : List Byte) :
    Outcome (RowBuilder × errType) :=
  (b.validateType mem err WIRE_TYPE_STRING).andThen fun err =>
    if !isOk err then .done (b, err) else
    (intAdd 4 (toInt32 val.length)).andThen fun remaining =>
    ((b.m_buffer.ensureRemaining remaining).putString remaining err val).andThen fun r =>
    if !isOk r.2 then .done ({ b with m_buffer := r.1 }, r.2) else
    .done ({ b with m_buffer := r.1, m_currentColumn := b.m_currentColumn + 1 }, r.2)

/-- `addVarbinary`, lines 155-166. The reservation is the `int` sum
`4 + bufsize`, which overflows for a `bufsize` within four of `2^31`. -/
def addVarbinary (mem : PastEnd) (b : RowBuilder) (err : errType) (bufsize : Int)
    (in_value : List Byte) : Outcome (RowBuilder × errType) :=
  (b.validateType mem err WIRE_TYPE_VARBINARY).andThen fun err =>
    if !isOk err then .done (b, err) else
    (intAdd 4 bufsize).andThen fun remaining =>
    ((b.m_buffer.ensureRemaining remaining).putBytes remaining err bufsize in_value).andThen
      fun r =>
    if !isOk r.2 then .done ({ b with m_buffer := r.1 }, r.2) else
    .done ({ b with m_buffer := r.1, m_currentColumn := b.m_currentColumn + 1 }, r.2)

/-- `reset`, lines 168-171. -/
def reset (b : RowBuilder) : RowBuilder :=
  { b with m_buffer := b.m_buffer.clear, m_currentColumn := 0 }

/-- The encoder one column further on, with the octets `bs` added at the end of
the sink and the schema untouched. -/
def appended (b : RowBuilder) (bs : List Byte) : RowBuilder :=
  { m_columns := b.m_columns, m_buffer := { bytes := b.m_buffer.bytes ++ bs },
    m_currentColumn := b.m_currentColumn + 1 }

end RowBuilder

/-! ## Callers -/

/-- A call of one of the seven typed operations, with its arguments. -/
inductive TypedCall where
  | addInt8 (val : Int)
  | addInt16 (val : Int)
  | addInt32 (val : Int)
  | addInt64 (val : Int)
  | addDouble (val : Double)
  | addString (val : List Byte)
  | addVarbinary (bufsize : Int) (in_value : List Byte)
  deriving DecidableEq, Repr

/-- The wire type a typed operation hands to `validateType`. -/
def TypedCall.wireType : TypedCall → WireType
  | .addInt8 _ => WIRE_TYPE_TINYINT
  | .addInt16 _ => WIRE_TYPE_SMALLINT
  | .addInt32 _ => WIRE_TYPE_INTEGER
  | .addInt64 _ => WIRE_TYPE_BIGINT
  | .addDouble _ => WIRE_TYPE_FLOAT
  | .addString _ => WIRE_TYPE_STRING
  | .addVarbinary _ _ => WIRE_TYPE_VARBINARY

/-- Performs a typed call on the encoder `b` with the caller's outcome variable
holding `err`. -/
def TypedCall.run (mem : PastEnd) (b : RowBuilder) (err : errType) :
    TypedCall → Outcome (RowBuilder × errType)
  | .addInt8 val => b.addInt8 mem err val
  | .addInt16 val => b.addInt16 mem err val
  | .addInt32 val => b.addInt32 mem err val
  | .addInt64 val => b.addInt64 mem err val
  | .addDouble val => b.addDouble mem err val
  | .addString val => b.addString mem err val
  | .addVarbinary bufsize in_value => b.addVarbinary mem err bufsize in_value

/-- The octets a typed operation hands to the sink once `validateType` has let it
through: what its `put` call writes when the reservation covers the write. -/
def TypedCall.octets : TypedCall → List Byte
  | .addInt8 val => beBytes 1 (toUnsigned 8 val)
  | .addInt16 val => beBytes 2 (toUnsigned 16 val)
  | .addInt32 val => beBytes 4 (toUnsigned 32 val)
  | .addInt64 val => beBytes 8 (toUnsigned 64 val)
  | .addDouble val => beBytes 8 val
  | .addString val => beBytes 4 (toUnsigned 32 (toInt32 val.length)) ++ val
  | .addVarbinary bufsize in_value => beBytes 4 (toUnsigned 32 bufsize) ++ in_value.take bufsize.toNat

/-- How a typed operation gets from `validateType` to its write: the fixed-width
operations reserve the very width they write; `addString` and `addVarbinary`
reserve an `int` sum that may overflow or fall short of the field. -/
def TypedCall.reservation : TypedCall → Outcome Unit
  | .addString val =>
    (intAdd 4 (toInt32 val.length)).andThen fun remaining =>
      if remaining < 4 + (val.length : Int) ∨ 2147483647 < 4 + (val.length : Int) then
        .unreservedWrite
      else .done ()
  | .addVarbinary bufsize _ =>
    (intAdd 4 bufsize).andThen fun remaining =>
      if remaining < 4 + (bufsize.toNat : Int) ∨ 2147483647 < 4 + (bufsize.toNat : Int) ∨
          bufsize < 0 then
        .unreservedWrite
      else .done ()
  | _ => .done ()

/-- Any call of the public interface: a typed operation, `addNull` or `reset`. -/
inductive Call where
  | typed (c : TypedCall)
  | addNull
  | reset
  deriving DecidableEq, Repr

/-- Performs a call; `reset` takes no outcome variable and leaves the caller's
untouched. -/
def Call.run (mem : PastEnd) (b : RowBuilder) (err : errType) :
    Call → Outcome (RowBuilder × errType)
  | .typed c => c.run mem b err
  | .addNull => b.addNull mem err
  | .reset => .done (b.reset, err)

/-- Performs the calls one after the other on the same encoder and the same
outcome variable. -/
def runCalls (mem : PastEnd) (b : RowBuilder) (err : errType) :
    List Call → Outcome (RowBuilder × errType)
  | [] => .done (b, err)
  | c :: cs => (c.run mem b err).andThen fun r => runCalls mem r.1 r.2 cs

/-- An application-level value offered for one column. -/
inductive Value where
  | int8 (v : Int)
  | int16 (v : Int)
  | int32 (v : Int)
  | int64 (v : Int)
  | double (d : Double)
  | string (s : List Byte)
  | varbinary (bs : List Byte)
  deriving DecidableEq, Repr

/-- The input for one column: `none` is NULL. -/
abbrev Cell := Option Value

/-- The value is one of the column type `t`: it lies in the range of the C++
argument type of the matching operation, and a payload has a length that fits
a signed 32-bit integer. -/
def Value.hasType : Value → WireType → Prop
  | .int8 v, WIRE_TYPE_TINYINT => -128 ≤ v ∧ v ≤ 127
  | .int16 v, WIRE_TYPE_SMALLINT => -32768 ≤ v ∧ v ≤ 32767
  | .int32 v, WIRE_TYPE_INTEGER => -2147483648 ≤ v ∧ v ≤ 2147483647
  | .int64 v, WIRE_TYPE_BIGINT => -9223372036854775808 ≤ v ∧ v ≤ 9223372036854775807
  | .double d, WIRE_TYPE_FLOAT => d < 2 ^ 64
  | .string s, WIRE_TYPE_STRING => s.length ≤ 2147483647
  | .varbinary bs, WIRE_TYPE_VARBINARY => bs.length ≤ 2147483647
  | _, _ => False

instance (v : Value) (t : WireType) : Decidable (v.hasType t) := by
  cases v <;> cases t <;> unfold Value.hasType <;> infer_instance

/-- The wire type is one of the seven column types of the data model. -/
def WireType.isColumnType : WireType → Prop
  | undefinedTag _ => False
  | _ => True

instance (t : WireType) : Decidable t.isColumnType := by
  cases t <;> unfold WireType.isColumnType <;> infer_instance

/-- The cell is NULL for a column of one of the seven types, or a value of the
column's type. -/
def cellHasType : Cell → WireType → Prop
  | none, t => t.isColumnType
  | some v, t => v.hasType t

instance (c : Cell) (t : WireType) : Decidable (cellHasType c t) := by
  cases c <;> unfold cellHasType <;> infer_instance

/-- The cells match the schema: as many cells as columns, the i-th cell of the
type of the i-th column. -/
def rowHasType : List Cell → List Column → Prop
  | [], [] => True
  | c :: cs, col :: cols => cellHasType c col.m_type ∧ rowHasType cs cols
  | _, _ => False

instance rowHasTypeDecidable : (cells : List Cell) → (schema : List Column) →
    Decidable (rowHasType cells schema)
  | [], [] => isTrue trivial
  | [], _ :: _ => isFalse (fun h => h)
  | _ :: _, [] => isFalse (fun h => h)
  | c :: cs, col :: cols =>
    have := rowHasTypeDecidable cs cols
    inferInstanceAs (Decidable (cellHasType c col.m_type ∧ rowHasType cs cols))

/-- The operation that matches a cell: `addNull` for NULL, else the typed
operation of the value. -/
def cellCall : Cell → Call
  | none => .addNull
  | some (.int8 v) => .typed (.addInt8 v)
  | some (.int16 v) => .typed (.addInt16 v)
  | some (.int32 v) => .typed (.addInt32 v)
  | some (.int64 v) => .typed (.addInt64 v)
  | some (.double d) => .typed (.addDouble d)
  | some (.string s) => .typed (.addString s)
  | some (.varbinary bs) => .typed (.addVarbinary bs.length bs)

/-- Encodes a row: the matching call for every cell in order, stopping at the
first call that reports an error, as a caller that checks the outcome does. -/
def encodeRow (mem : PastEnd) (b : RowBuilder) : List Cell → Outcome (RowBuilder × errType)
  | [] => .done (b, errOk)
  | c :: cs =>
    ((cellCall c).run mem b errOk).andThen fun r =>
      if !isOk r.2 then .done r else encodeRow mem r.1 cs

/-! ## The wire layout of the specification (section 6) -/

/-- The NULL field of a column type, after the table of section 4.1: the minimal
signed value of the width, the most negative double, or the length -1 with no
payload. -/
def nullField : WireType → List Byte
  | WIRE_TYPE_TINYINT => beBytes 1 (toUnsigned 8 (-(2 : Int) ^ 7))
  | WIRE_TYPE_SMALLINT => beBytes 2 (toUnsigned 16 (-(2 : Int) ^ 15))
  | WIRE_TYPE_INTEGER => beBytes 4 (toUnsigned 32 (-(2 : Int) ^ 31))
  | WIRE_TYPE_BIGINT => beBytes 8 (toUnsigned 64 (-(2 : Int) ^ 63))
  | WIRE_TYPE_FLOAT => beBytes 8 NULL_DOUBLE
  | WIRE_TYPE_STRING => beBytes 4 (toUnsigned 32 (-1))
  | WIRE_TYPE_VARBINARY => beBytes 4 (toUnsigned 32 (-1))
  | undefinedTag _ => []

/-- The field of a value: `fixed_field` is the value in the width of its type,
big-endian, two's complement or IEEE-754; `variable_field` is the int32 length
followed by that many payload bytes. -/
def valueField : Value → List Byte
  | .int8 v => beBytes 1 (toUnsigned 8 v)
  | .int16 v => beBytes 2 (toUnsigned 16 v)
  | .int32 v => beBytes 4 (toUnsigned 32 v)
  | .int64 v => beBytes 8 (toUnsigned 64 v)
  | .double d => beBytes 8 d
  | .string s => beBytes 4 (toUnsigned 32 s.length) ++ s
  | .varbinary bs => beBytes 4 (toUnsigned 32 bs.length) ++ bs

/-- The field of a cell in a column of type `t`. -/
def cellField (t : WireType) : Cell → List Byte
  | none => nullField t
  | some v => valueField v

/-- The row image `field(col_0) field(col_1) ... field(col_{N-1})`: the fields in
column order, nothing before, between or after them. -/
def rowImage : List Column → List Cell → List Byte
  | col :: cols, c :: cs => cellField col.m_type c ++ rowImage cols cs
  | _, _ => []

/-- Reads a fixed field of `width` octets off the front of the input. -/
def decodeFixed (width : Nat) (bs : List Byte) : Option (Nat × List Byte) :=
  if bs.length < width then none else some (beValue (bs.take width), bs.drop width)

/-- Reads a variable field off the front of the input: `some none` for the
length -1, the payload for a length of 0 or more. -/
def decodeVariable (bs : List Byte) : Option (Option (List Byte) × List Byte) :=
  match decodeFixed 4 bs with
  | none => none
  | some (u, rest) =>
    let len := toSigned 32 u
    if len = -1 then some (none, rest)
    else if len < 0 then none
    else if rest.length < len.toNat then none
    else some (some (rest.take len.toNat), rest.drop len.toNat)

/-- Modelled from the spec: the decode side is no part of the source. Reads the
field of a column of type `t` per the wire layout: fixed fields by width,
variable fields by their int32 length, the type's sentinel read back as NULL. -/
def decodeField (t : WireType) (bs : List Byte) : Option (Cell × List Byte) :=
  match t with
  | WIRE_TYPE_TINYINT =>
    (decodeFixed 1 bs).map fun r =>
      (if toSigned 8 r.1 = INT8_MIN then none else some (.int8 (toSigned 8 r.1)), r.2)
  | WIRE_TYPE_SMALLINT =>
    (decodeFixed 2 bs).map fun r =>
      (if toSigned 16 r.1 = INT16_MIN then none else some (.int16 (toSigned 16 r.1)), r.2)
  | WIRE_TYPE_INTEGER =>
    (decodeFixed 4 bs).map fun r =>
      (if toSigned 32 r.1 = INT32_MIN then none else some (.int32 (toSigned 32 r.1)), r.2)
  | WIRE_TYPE_BIGINT =>
    (decodeFixed 8 bs).map fun r =>
      (if toSigned 64 r.1 = INT64_MIN then none else some (.int64 (toSigned 64 r.1)), r.2)
  | WIRE_TYPE_FLOAT =>
    (decodeFixed 8 bs).map fun r =>
      (if r.1 = NULL_DOUBLE then none else some (.double r.1), r.2)
  | WIRE_TYPE_STRING =>
    (decodeVariable bs).map fun r => (r.1.map Value.string, r.2)
  | WIRE_TYPE_VARBINARY =>
    (decodeVariable bs).map fun r => (r.1.map Value.varbinary, r.2)
  | undefinedTag _ => none

/-- Modelled from the spec: decodes a row image column by column; the image must
be used up exactly. -/
def decodeRow : List Column → List Byte → Option (List Cell)
  | [], bs => if bs = [] then some [] else none
  | col :: cols, bs =>
    match decodeField col.m_type bs with
    | none => none
    | some (c, rest) => (decodeRow cols rest).map fun cs => c :: cs

/-- The cell is not a value that coincides with the NULL sentinel of its own
fixed-width type. -/
def notSentinel : Cell → Prop
  | some (.int8 v) => v ≠ INT8_MIN
  | some (.int16 v) => v ≠ INT16_MIN
  | some (.int32 v) => v ≠ INT32_MIN
  | some (.int64 v) => v ≠ INT64_MIN
  | some (.double d) => d ≠ NULL_DOUBLE
  | _ => True

instance (c : Cell) : Decidable (notSentinel c) := by
  unfold notSentinel
  split <;> infer_instance

/-- The field of the cell can be reserved: a payload has at most `2^31 - 5`
octets, so that the `int` sum of 4 and its length does not overflow. -/
def reservable : Cell → Prop
  | some (.string s) => s.length ≤ 2147483643
  | some (.varbinary bs) => bs.length ≤ 2147483643
  | _ => True

instance (c : Cell) : Decidable (reservable c) := by
  unfold reservable
  split <;> infer_instance

/-! ## Reading a binary64 pattern -/

/-- The rational number a finite IEEE-754 binary64 pattern denotes: bit 63 is the
sign, bits 62 to 52 the exponent field, bits 51 to 0 the fraction; the exponent
field 0 is a subnormal. A pattern with exponent field 2047, an infinity or a
NaN, denotes no number and is set apart by `isFinite64`. -/
def binary64Value (bits : Nat) : ℚ :=
  let s : ℚ := if bits / 2 ^ 63 % 2 = 1 then -1 else 1
  let e : Nat := bits / 2 ^ 52 % 2 ^ 11
  let f : Nat := bits % 2 ^ 52
  if e = 0 then s * (f : ℚ) * (2 : ℚ) ^ (-1074 : Int)
  else s * ((2 : ℚ) ^ 52 + (f : ℚ)) * (2 : ℚ) ^ ((e : Int) - 1075)

/-- The pattern is a finite number: its exponent field is not all ones. -/
def isFinite64 (bits : Nat) : Prop := bits / 2 ^ 52 % 2 ^ 11 ≠ 2047

instance (bits : Nat) : Decidable (isFinite64 bits) := by
  unfold isFinite64
  infer_instance

/-- The decimal literal `-1.7976931348623157E+308` of `addNull` (line 126) as the
rational number it writes down, `-17976931348623157 * 10^292`. -/
def NULL_DOUBLE_LITERAL : ℚ := -17976931348623157 * 10 ^ 292

/-! # Theorems -/

open RowBuilder

/-! ## Reading the column under the cursor -/

theorem currentType_of_lt (mem : PastEnd) (b : RowBuilder)
    (hc : b.m_currentColumn < b.m_columns.length) :
    b.currentType mem = .done b.m_columns[b.m_currentColumn].m_type := by
  simp [currentType, List.getElem?_eq_getElem hc]

theorem validateType_of_lt (mem : PastEnd) (b : RowBuilder) (err : errType) (type : WireType)
    (hc : b.m_currentColumn < b.m_columns.length) :
    b.validateType mem err type =
      .done (if b.m_columns[b.m_currentColumn].m_type = type then err
             else errColumnMismatchException) := by
  have hn : ¬ b.m_currentColumn > b.m_columns.length := by omega
  by_cases h : b.m_columns[b.m_currentColumn].m_type = type <;>
    simp [validateType, currentType_of_lt mem b hc, Outcome.andThen, setErr, h, hn]

theorem currentType_at_end (mem : PastEnd) (cols : List Column) (buf : ScopedByteBuffer) :
    currentType mem ⟨cols, buf, cols.length⟩ =
      match mem cols.length with
      | some t => .done t
      | none => .outOfRange := by
  simp [currentType]

/-! ## The operations on a matching column -/

theorem addInt8_ok (mem : PastEnd) (b : RowBuilder) (val : Int)
    (hc : b.m_currentColumn < b.m_columns.length)
    (ht : b.m_columns[b.m_currentColumn].m_type = WIRE_TYPE_TINYINT) :
    b.addInt8 mem errOk val = .done (b.appended (beBytes 1 (toUnsigned 8 val)), errOk) := by
  simp [addInt8, validateType_of_lt mem b _ _ hc, ht, Outcome.andThen, isOk, appended,
    ScopedByteBuffer.putInt8, ScopedByteBuffer.putFixed, ScopedByteBuffer.ensureRemaining]

theorem addInt16_ok (mem : PastEnd) (b : RowBuilder) (val : Int)
    (hc : b.m_currentColumn < b.m_columns.length)
    (ht : b.m_columns[b.m_currentColumn].m_type = WIRE_TYPE_SMALLINT) :
    b.addInt16 mem errOk val = .done (b.appended (beBytes 2 (toUnsigned 16 val)), errOk) := by
  simp [addInt16, validateType_of_lt mem b _ _ hc, ht, Outcome.andThen, isOk, appended,
    ScopedByteBuffer.putInt16, ScopedByteBuffer.putFixed, ScopedByteBuffer.ensureRemaining]

theorem addInt32_ok (mem : PastEnd) (b : RowBuilder) (val : Int)
    (hc : b.m_currentColumn < b.m_columns.length)
    (ht : b.m_columns[b.m_currentColumn].m_type = WIRE_TYPE_INTEGER) :
    b.addInt32 mem errOk val = .done (b.appended (beBytes 4 (toUnsigned 32 val)), errOk) := by
  simp [addInt32, validateType_of_lt mem b _ _ hc, ht, Outcome.andThen, isOk, appended,
    ScopedByteBuffer.putInt32, ScopedByteBuffer.putFixed, ScopedByteBuffer.ensureRemaining]

theorem addInt64_ok (mem : PastEnd) (b : RowBuilder) (val : Int)
    (hc : b.m_currentColumn < b.m_columns.length)
    (ht : b.m_columns[b.m_currentColumn].m_type = WIRE_TYPE_BIGINT) :
    b.addInt64 mem errOk val = .done (b.appended (beBytes 8 (toUnsigned 64 val)), errOk) := by
  simp [addInt64, validateType_of_lt mem b _ _ hc, ht, Outcome.andThen, isOk, appended,
    ScopedByteBuffer.putInt64, ScopedByteBuffer.putFixed, ScopedByteBuffer.ensureRemaining]

theorem addDouble_ok (mem : PastEnd) (b : RowBuilder) (val : Double)
    (hc : b.m_currentColumn < b.m_columns.length)
    (ht : b.m_columns[b.m_currentColumn].m_type = WIRE_TYPE_FLOAT) :
    b.addDouble mem errOk val = .done (b.appended (beBytes 8 val), errOk) := by
  simp [addDouble, validateType_of_lt mem b _ _ hc, ht, Outcome.andThen, isOk, appended,
    ScopedByteBuffer.putDouble, ScopedByteBuffer.putFixed, ScopedByteBuffer.ensureRemaining]

theorem toUnsigned_natCast (n : Nat) (h : n ≤ 2147483647) : toUnsigned 32 (n : Int) = n := by
  simp only [toUnsigned]
  omega

theorem toUnsigned_toInt32 (n : Nat) (h : n ≤ 2147483647) : toUnsigned 32 (toInt32 n) = n := by
  have h1 : n % 2 ^ 32 = n := Nat.mod_eq_of_lt (by omega)
  have h2 : n < 2 ^ (32 - 1) := by norm_num; omega
  simp only [toInt32, toSigned, h1, h2, if_true]
  exact toUnsigned_natCast n h

theorem toInt32_of_le (n : Nat) (h : n ≤ 2147483647) : toInt32 n = (n : Int) := by
  simp only [toInt32, toSigned]
  split <;> omega

theorem intAdd_done (x y : Int) (h1 : -2147483648 ≤ x + y) (h2 : x + y ≤ 2147483647) :
    intAdd x y = .done (x + y) := by
  unfold intAdd
  rw [if_neg (by omega)]

theorem intAdd_overflow (x y : Int) (h : 2147483647 < x + y) :
    intAdd x y = (.signedOverflow : Outcome Int) := by
  unfold intAdd
  rw [if_pos (Or.inr h)]

theorem addString_ok (mem : PastEnd) (b : RowBuilder) (val : List Byte)
    (hc : b.m_currentColumn < b.m_columns.length)
    (ht : b.m_columns[b.m_currentColumn].m_type = WIRE_TYPE_STRING)
    (hl : val.length ≤ 2147483643) :
    b.addString mem errOk val = .done (b.appended (beBytes 4 val.length ++ val), errOk) := by
  have h32 : toInt32 val.length = (val.length : Int) := toInt32_of_le _ (by omega)
  have hadd : intAdd 4 (val.length : Int) = .done (4 + (val.length : Int)) :=
    intAdd_done _ _ (by omega) (by omega)
  have hcov : ¬ (4 + (val.length : Int) < 4 + (val.length : Int) ∨
      2147483647 < 4 + (val.length : Int)) := by omega
  have hu : toUnsigned 32 (val.length : Int) = val.length := toUnsigned_natCast _ (by omega)
  simp only [addString, validateType_of_lt mem b _ _ hc, ht, if_true, h32, hadd,
    Outcome.andThen, isOk, ScopedByteBuffer.putString, ScopedByteBuffer.ensureRemaining, hcov,
    if_false, ScopedByteBuffer.putInt32, ScopedByteBuffer.putFixed, hu, appended]
  simp

theorem addVarbinary_ok (mem : PastEnd) (b : RowBuilder) (in_value : List Byte)
    (hc : b.m_currentColumn < b.m_columns.length)
    (ht : b.m_columns[b.m_currentColumn].m_type = WIRE_TYPE_VARBINARY)
    (hl : in_value.length ≤ 2147483643) :
    b.addVarbinary mem errOk in_value.length in_value =
      .done (b.appended (beBytes 4 in_value.length ++ in_value), errOk) := by
  have hadd : intAdd 4 (in_value.length : Int) = .done (4 + (in_value.length : Int)) :=
    intAdd_done _ _ (by omega) (by omega)
  have hcov : ¬ (4 + (in_value.length : Int) < 4 + (((in_value.length : Int).toNat : Nat) : Int) ∨
      2147483647 < 4 + (((in_value.length : Int).toNat : Nat) : Int) ∨
      (in_value.length : Int) < 0) := by omega
  have hu : toUnsigned 32 (in_value.length : Int) = in_value.length :=
    toUnsigned_natCast _ (by omega)
  simp only [addVarbinary, validateType_of_lt mem b _ _ hc, ht, if_true, Outcome.andThen, isOk,
    hadd, ScopedByteBuffer.putBytes, ScopedByteBuffer.ensureRemaining, hcov, if_false,
    ScopedByteBuffer.putInt32, ScopedByteBuffer.putFixed, hu, appended]
  simp

theorem addNull_ok (mem : PastEnd) (b : RowBuilder)
    (hc : b.m_currentColumn < b.m_columns.length)
    (ht : b.m_columns[b.m_currentColumn].m_type.isColumnType) :
    b.addNull mem errOk =
      .done (b.appended (nullField b.m_columns[b.m_currentColumn].m_type), errOk) := by
  have hn : ¬ b.m_currentColumn > b.m_columns.length := by omega
  unfold addNull
  rw [if_neg hn, currentType_of_lt mem b hc]
  generalize hty : b.m_columns[b.m_currentColumn].m_type = t at ht
  cases t with
  | WIRE_TYPE_TINYINT => simpa [Outcome.andThen, nullField, INT8_MIN] using addInt8_ok mem b _ hc hty
  | WIRE_TYPE_SMALLINT => simpa [Outcome.andThen, nullField, INT16_MIN] using addInt16_ok mem b _ hc hty
  | WIRE_TYPE_INTEGER => simpa [Outcome.andThen, nullField, INT32_MIN] using addInt32_ok mem b _ hc hty
  | WIRE_TYPE_BIGINT => simpa [Outcome.andThen, nullField, INT64_MIN] using addInt64_ok mem b _ hc hty
  | WIRE_TYPE_FLOAT => simpa [Outcome.andThen, nullField] using addDouble_ok mem b _ hc hty
  | WIRE_TYPE_STRING =>
    simp [Outcome.andThen, nullField, appended, ScopedByteBuffer.putInt32,
      ScopedByteBuffer.putFixed, ScopedByteBuffer.ensureRemaining]
  | WIRE_TYPE_VARBINARY =>
    simp [Outcome.andThen, nullField, appended, ScopedByteBuffer.putInt32,
      ScopedByteBuffer.putFixed, ScopedByteBuffer.ensureRemaining]
  | undefinedTag tag => exact absurd ht (by simp [WireType.isColumnType])

/-! ## Big-endian octets -/

theorem length_beBytes (w u : Nat) : (beBytes w u).length = w := by
  induction w with
  | zero => rfl
  | succ w ih => simp [beBytes, ih]

theorem foldl_beBytes (w u acc : Nat) :
    (beBytes w u).foldl (fun a (x : Byte) => a * 256 + x.val) acc = acc * 256 ^ w + u % 256 ^ w := by
  induction w generalizing acc with
  | zero => simp [beBytes, Nat.mod_one]
  | succ w ih =>
    simp only [beBytes, List.foldl_cons, ih, octet]
    rw [Nat.mod_pow_succ]
    ring

theorem beValue_beBytes (w u : Nat) : beValue (beBytes w u) = u % 256 ^ w := by
  simp [beValue, foldl_beBytes]

theorem decodeFixed_beBytes (w u : Nat) (rest : List Byte) :
    decodeFixed w (beBytes w u ++ rest) = some (u % 256 ^ w, rest) := by
  have hl := length_beBytes w u
  have h1 : ¬ (beBytes w u ++ rest).length < w := by simp [hl]
  have h2 : (beBytes w u ++ rest).take w = beBytes w u := by
    rw [List.take_append_of_le_length (by omega), List.take_of_length_le (by omega)]
  have h3 : (beBytes w u ++ rest).drop w = rest := by
    rw [List.drop_append_of_le_length (by omega), List.drop_of_length_le (by omega)]
    simp
  simp only [decodeFixed, h1, if_false, h2, h3, beValue_beBytes]

theorem toSigned_toUnsigned_8 (v : Int) (h : -128 ≤ v ∧ v ≤ 127) :
    toSigned 8 (toUnsigned 8 v % 256 ^ 1) = v := by
  simp only [toSigned, toUnsigned]
  split <;> omega

theorem toSigned_toUnsigned_16 (v : Int) (h : -32768 ≤ v ∧ v ≤ 32767) :
    toSigned 16 (toUnsigned 16 v % 256 ^ 2) = v := by
  simp only [toSigned, toUnsigned]
  split <;> omega

theorem toSigned_toUnsigned_32 (v : Int) (h : -2147483648 ≤ v ∧ v ≤ 2147483647) :
    toSigned 32 (toUnsigned 32 v % 256 ^ 4) = v := by
  simp only [toSigned, toUnsigned]
  split <;> omega

theorem toSigned_toUnsigned_64 (v : Int)
    (h : -9223372036854775808 ≤ v ∧ v ≤ 9223372036854775807) :
    toSigned 64 (toUnsigned 64 v % 256 ^ 8) = v := by
  simp only [toSigned, toUnsigned]
  split <;> omega

/-! ## Whole rows -/

theorem cellCall_ok (mem : PastEnd) (b : RowBuilder) (c : Cell)
    (hc : b.m_currentColumn < b.m_columns.length)
    (ht : cellHasType c b.m_columns[b.m_currentColumn].m_type) (hr : reservable c) :
    (cellCall c).run mem b errOk =
      .done (b.appended (cellField b.m_columns[b.m_currentColumn].m_type c), errOk) := by
  cases c with
  | none => exact addNull_ok mem b hc ht
  | some v =>
    generalize hty : b.m_columns[b.m_currentColumn].m_type = t at ht
    cases v with
    | int8 v =>
      cases t <;> simp only [cellHasType, Value.hasType] at ht
      exact addInt8_ok mem b v hc hty
    | int16 v =>
      cases t <;> simp only [cellHasType, Value.hasType] at ht
      exact addInt16_ok mem b v hc hty
    | int32 v =>
      cases t <;> simp only [cellHasType, Value.hasType] at ht
      exact addInt32_ok mem b v hc hty
    | int64 v =>
      cases t <;> simp only [cellHasType, Value.hasType] at ht
      exact addInt64_ok mem b v hc hty
    | double d =>
      cases t <;> simp only [cellHasType, Value.hasType] at ht
      exact addDouble_ok mem b d hc hty
    | string s =>
      cases t <;> simp only [cellHasType, Value.hasType] at ht
      simpa [cellCall, Call.run, TypedCall.run, cellField, valueField, toUnsigned_natCast _ ht]
        using addString_ok mem b s hc hty hr
    | varbinary bs =>
      cases t <;> simp only [cellHasType, Value.hasType] at ht
      simpa [cellCall, Call.run, TypedCall.run, cellField, valueField, toUnsigned_natCast _ ht]
        using addVarbinary_ok mem b bs hc hty hr

theorem rowHasType_length : ∀ (cells : List Cell) (schema : List Column),
    rowHasType cells schema → cells.length = schema.length
  | [], [], _ => rfl
  | [], _ :: _, h => absurd h (by simp [rowHasType])
  | _ :: _, [], h => absurd h (by simp [rowHasType])
  | _ :: cs, _ :: cols, h => by
    have ih := rowHasType_length cs cols h.2
    simp [ih]

theorem encodeRow_from (mem : PastEnd) (cells : List Cell) : ∀ (b : RowBuilder),
    rowHasType cells (b.m_columns.drop b.m_currentColumn) → (∀ c ∈ cells, reservable c) →
    encodeRow mem b cells =
      .done (⟨b.m_columns,
          ⟨b.m_buffer.bytes ++ rowImage (b.m_columns.drop b.m_currentColumn) cells⟩,
          b.m_currentColumn + cells.length⟩, errOk) := by
  induction cells with
  | nil =>
    intro b _ _
    cases hd : b.m_columns.drop b.m_currentColumn <;> simp [encodeRow, rowImage]
  | cons c cs ih =>
    intro b h hr
    have hc : b.m_currentColumn < b.m_columns.length := by
      by_contra hn
      rw [List.drop_of_length_le (by omega)] at h
      exact h
    rw [List.drop_eq_getElem_cons hc] at h ⊢
    obtain ⟨h1, h2⟩ := h
    have step := cellCall_ok mem b c hc h1 (hr c (List.mem_cons_self _ _))
    have ih2 := ih (b.appended (cellField b.m_columns[b.m_currentColumn].m_type c)) h2
      (fun x hx => hr x (List.mem_cons_of_mem _ hx))
    simp only [encodeRow, step, Outcome.andThen, isOk, rowImage]
    simp only [appended] at ih2
    simp [ih2, appended, Nat.add_assoc, Nat.add_comm 1]

theorem encodeRow_string_head (mem : PastEnd) (b : RowBuilder) (s : List Byte)
    (cs : List Cell) :
    encodeRow mem b (some (.string s) :: cs) =
      (b.addString mem errOk s).andThen fun r =>
        if !isOk r.2 then .done r else encodeRow mem r.1 cs := rfl

theorem encodeRow_fresh (mem : PastEnd) (schema : List Column) (cells : List Cell)
    (h : rowHasType cells schema) (hr : ∀ c ∈ cells, reservable c) :
    encodeRow mem (fresh schema) cells =
      .done (⟨schema, ⟨rowImage schema cells⟩, schema.length⟩, errOk) := by
  have e := encodeRow_from mem cells (fresh schema) (by simpa [fresh] using h) hr
  simpa [fresh, rowHasType_length cells schema h] using e

/-! ## Reading a row image back -/

theorem decodeVariable_null (rest : List Byte) :
    decodeVariable (beBytes 4 (toUnsigned 32 (-1)) ++ rest) = some (none, rest) := by
  have h : toSigned 32 (toUnsigned 32 (-1) % 256 ^ 4) = -1 := by decide
  simp only [decodeVariable, decodeFixed_beBytes, h, if_true]

theorem decodeVariable_payload (s rest : List Byte) (hl : s.length ≤ 2147483647) :
    decodeVariable (beBytes 4 (toUnsigned 32 s.length) ++ s ++ rest) = some (some s, rest) := by
  have h : toSigned 32 (toUnsigned 32 (s.length : Int) % 256 ^ 4) = (s.length : Int) :=
    toSigned_toUnsigned_32 _ (by omega)
  have h1 : ¬ ((s.length : Int) = -1) := by omega
  have h2 : ¬ ((s.length : Int) < 0) := by omega
  rw [List.append_assoc]
  simp only [decodeVariable, decodeFixed_beBytes, h, h1, h2, if_false, Int.toNat_ofNat]
  simp

theorem decodeField_cellField (t : WireType) (c : Cell) (rest : List Byte)
    (ht : cellHasType c t) (hs : notSentinel c) :
    decodeField t (cellField t c ++ rest) = some (c, rest) := by
  cases c with
  | none =>
    cases t with
    | WIRE_TYPE_TINYINT =>
      have h : toSigned 8 (toUnsigned 8 (-(2 : Int) ^ 7) % 256 ^ 1) = INT8_MIN := by decide
      simp only [decodeField, cellField, nullField, decodeFixed_beBytes, Option.map_some', h,
        if_true]
    | WIRE_TYPE_SMALLINT =>
      have h : toSigned 16 (toUnsigned 16 (-(2 : Int) ^ 15) % 256 ^ 2) = INT16_MIN := by decide
      simp only [decodeField, cellField, nullField, decodeFixed_beBytes, Option.map_some', h,
        if_true]
    | WIRE_TYPE_INTEGER =>
      have h : toSigned 32 (toUnsigned 32 (-(2 : Int) ^ 31) % 256 ^ 4) = INT32_MIN := by decide
      simp only [decodeField, cellField, nullField, decodeFixed_beBytes, Option.map_some', h,
        if_true]
    | WIRE_TYPE_BIGINT =>
      have h : toSigned 64 (toUnsigned 64 (-(2 : Int) ^ 63) % 256 ^ 8) = INT64_MIN := by decide
      simp only [decodeField, cellField, nullField, decodeFixed_beBytes, Option.map_some', h,
        if_true]
    | WIRE_TYPE_FLOAT =>
      have h : NULL_DOUBLE % 256 ^ 8 = NULL_DOUBLE := by decide
      simp only [decodeField, cellField, nullField, decodeFixed_beBytes, Option.map_some', h,
        if_true]
    | WIRE_TYPE_STRING =>
      simp [decodeField, cellField, nullField, decodeVariable_null]
    | WIRE_TYPE_VARBINARY =>
      simp [decodeField, cellField, nullField, decodeVariable_null]
    | undefinedTag tag => exact absurd ht (by simp [cellHasType, WireType.isColumnType])
  | some v =>
    cases v with
    | int8 v =>
      cases t <;> simp only [cellHasType, Value.hasType] at ht
      have h := toSigned_toUnsigned_8 v ht
      have hs2 : v ≠ INT8_MIN := hs
      simp only [decodeField, cellField, valueField, decodeFixed_beBytes, Option.map_some', h,
        if_neg hs2]
    | int16 v =>
      cases t <;> simp only [cellHasType, Value.hasType] at ht
      have h := toSigned_toUnsigned_16 v ht
      have hs2 : v ≠ INT16_MIN := hs
      simp only [decodeField, cellField, valueField, decodeFixed_beBytes, Option.map_some', h,
        if_neg hs2]
    | int32 v =>
      cases t <;> simp only [cellHasType, Value.hasType] at ht
      have h := toSigned_toUnsigned_32 v ht
      have hs2 : v ≠ INT32_MIN := hs
      simp only [decodeField, cellField, valueField, decodeFixed_beBytes, Option.map_some', h,
        if_neg hs2]
    | int64 v =>
      cases t <;> simp only [cellHasType, Value.hasType] at ht
      have h := toSigned_toUnsigned_64 v ht
      have hs2 : v ≠ INT64_MIN := hs
      simp only [decodeField, cellField, valueField, decodeFixed_beBytes, Option.map_some', h,
        if_neg hs2]
    | double d =>
      cases t <;> simp only [cellHasType, Value.hasType] at ht
      have h : (d : Nat) % 256 ^ 8 = d := Nat.mod_eq_of_lt (lt_of_lt_of_le ht (by norm_num))
      have hs2 : d ≠ NULL_DOUBLE := hs
      simp only [decodeField, cellField, valueField, decodeFixed_beBytes, Option.map_some', h,
        if_neg hs2]
    | string s =>
      cases t <;> simp only [cellHasType, Value.hasType] at ht
      simp only [decodeField, cellField, valueField, decodeVariable_payload s rest ht]
      rfl
    | varbinary bs =>
      cases t <;> simp only [cellHasType, Value.hasType] at ht
      simp only [decodeField, cellField, valueField, decodeVariable_payload bs rest ht]
      rfl

theorem decodeRow_rowImage : ∀ (schema : List Column) (cells : List Cell),
    rowHasType cells schema → (∀ c ∈ cells, notSentinel c) →
    decodeRow schema (rowImage schema cells) = some cells
  | [], [], _, _ => by simp [decodeRow, rowImage]
  | _ :: _, [], h, _ => absurd h (by simp [rowHasType])
  | [], _ :: _, h, _ => absurd h (by simp [rowHasType])
  | col :: cols, c :: cs, h, hs => by
    have ih := decodeRow_rowImage cols cs h.2 (fun x hx => hs x (List.mem_cons_of_mem _ hx))
    have hf := decodeField_cellField col.m_type c (rowImage cols cs) h.1
      (hs c (List.mem_cons_self _ _))
    simp [decodeRow, rowImage, hf, ih]

/-! ## Every typed operation in one form -/

theorem typedCall_run_eq (mem : PastEnd) (b : RowBuilder) (err : errType) (c : TypedCall) :
    c.run mem b err =
      (b.validateType mem err c.wireType).andThen fun e =>
        if isOk e then c.reservation.andThen fun _ => .done (b.appended c.octets, e)
        else .done (b, e) := by
  cases c with
  | addString val =>
    simp only [TypedCall.run, TypedCall.wireType, TypedCall.octets, TypedCall.reservation,
      addString, ScopedByteBuffer.putString, ScopedByteBuffer.putInt32, ScopedByteBuffer.putFixed,
      ScopedByteBuffer.ensureRemaining, appended]
    congr 1
    funext e
    cases h : isOk e
    · simp
    · by_cases ho : 4 + toInt32 val.length < -2147483648 ∨ 2147483647 < 4 + toInt32 val.length
      · simp only [intAdd, ho, if_true, Outcome.andThen]
        simp
      · by_cases hcov : 4 + toInt32 val.length < 4 + (val.length : Int) ∨
            2147483647 < 4 + (val.length : Int)
        · simp only [intAdd, ho, hcov, if_true, if_false, Outcome.andThen]
          simp
        · simp only [intAdd, ho, hcov, if_true, if_false, Outcome.andThen, h]
          simp [List.append_assoc]
  | addVarbinary bufsize in_value =>
    simp only [TypedCall.run, TypedCall.wireType, TypedCall.octets, TypedCall.reservation,
      addVarbinary, ScopedByteBuffer.putBytes, ScopedByteBuffer.putInt32,
      ScopedByteBuffer.putFixed, ScopedByteBuffer.ensureRemaining, appended]
    congr 1
    funext e
    cases h : isOk e
    · simp
    · by_cases ho : 4 + bufsize < -2147483648 ∨ 2147483647 < 4 + bufsize
      · simp only [intAdd, ho, if_true, Outcome.andThen]
        simp
      · by_cases hcov : 4 + bufsize < 4 + ((bufsize.toNat : Nat) : Int) ∨
            2147483647 < 4 + ((bufsize.toNat : Nat) : Int) ∨ bufsize < 0
        · simp only [intAdd, ho, hcov, if_true, if_false, Outcome.andThen]
          simp
        · simp only [intAdd, ho, hcov, if_true, if_false, Outcome.andThen, h]
          simp [List.append_assoc]
  | addInt8 val =>
    simp only [TypedCall.run, TypedCall.wireType, TypedCall.octets, TypedCall.reservation,
      addInt8, ScopedByteBuffer.putInt8, ScopedByteBuffer.putFixed,
      ScopedByteBuffer.ensureRemaining, appended, Outcome.andThen]
    congr 1
    funext e
    cases h : isOk e <;> simp
  | addInt16 val =>
    simp only [TypedCall.run, TypedCall.wireType, TypedCall.octets, TypedCall.reservation,
      addInt16, ScopedByteBuffer.putInt16, ScopedByteBuffer.putFixed,
      ScopedByteBuffer.ensureRemaining, appended, Outcome.andThen]
    congr 1
    funext e
    cases h : isOk e <;> simp
  | addInt32 val =>
    simp only [TypedCall.run, TypedCall.wireType, TypedCall.octets, TypedCall.reservation,
      addInt32, ScopedByteBuffer.putInt32, ScopedByteBuffer.putFixed,
      ScopedByteBuffer.ensureRemaining, appended, Outcome.andThen]
    congr 1
    funext e
    cases h : isOk e <;> simp
  | addInt64 val =>
    simp only [TypedCall.run, TypedCall.wireType, TypedCall.octets, TypedCall.reservation,
      addInt64, ScopedByteBuffer.putInt64, ScopedByteBuffer.putFixed,
      ScopedByteBuffer.ensureRemaining, appended, Outcome.andThen]
    congr 1
    funext e
    cases h : isOk e <;> simp
  | addDouble val =>
    simp only [TypedCall.run, TypedCall.wireType, TypedCall.octets, TypedCall.reservation,
      addDouble, ScopedByteBuffer.putDouble, ScopedByteBuffer.putFixed,
      ScopedByteBuffer.ensureRemaining, appended, Outcome.andThen]
    congr 1
    funext e
    cases h : isOk e <;> simp

theorem validateType_done_or_outOfRange (mem : PastEnd) (b : RowBuilder) (err : errType)
    (type : WireType) :
    b.validateType mem err type = .outOfRange ∨ ∃ e, b.validateType mem err type = .done e := by
  unfold validateType currentType
  cases b.m_columns[b.m_currentColumn]? with
  | some c =>
    right
    simp only [Outcome.andThen]
    split <;> exact ⟨_, rfl⟩
  | none =>
    cases mem b.m_currentColumn with
    | none => exact Or.inl rfl
    | some t =>
      right
      simp only [Outcome.andThen]
      split <;> exact ⟨_, rfl⟩

theorem reservation_cases (c : TypedCall) :
    c.reservation = .done () ∨ c.reservation = .signedOverflow ∨
      c.reservation = .unreservedWrite := by
  cases c with
  | addString val =>
    simp only [TypedCall.reservation, intAdd]
    split
    · exact Or.inr (Or.inl rfl)
    · simp only [Outcome.andThen]
      split
      · exact Or.inr (Or.inr rfl)
      · exact Or.inl rfl
  | addVarbinary bufsize in_value =>
    simp only [TypedCall.reservation, intAdd]
    split
    · exact Or.inr (Or.inl rfl)
    · simp only [Outcome.andThen]
      split
      · exact Or.inr (Or.inr rfl)
      · exact Or.inl rfl
  | addInt8 val => exact Or.inl rfl
  | addInt16 val => exact Or.inl rfl
  | addInt32 val => exact Or.inl rfl
  | addInt64 val => exact Or.inl rfl
  | addDouble val => exact Or.inl rfl

theorem validateType_keeps_error (mem : PastEnd) (b : RowBuilder) (err : errType)
    (type : WireType) (herr : isOk err = false) (e : errType)
    (h : b.validateType mem err type = .done e) : isOk e = false := by
  unfold validateType currentType at h
  cases hg : b.m_columns[b.m_currentColumn]? with
  | some c =>
    rw [hg] at h
    simp only [Outcome.andThen] at h
    split at h
    · cases h
      rfl
    · cases h
      exact herr
  | none =>
    rw [hg] at h
    cases hm : mem b.m_currentColumn with
    | none => rw [hm] at h; simp [Outcome.andThen] at h
    | some t =>
      rw [hm] at h
      simp only [Outcome.andThen] at h
      split at h
      · cases h
        rfl
      · cases h
        exact herr

theorem validateType_ne_assertFailed (mem : PastEnd) (b : RowBuilder) (err : errType)
    (type : WireType) : b.validateType mem err type ≠ .assertFailed := by
  rcases validateType_done_or_outOfRange mem b err type with h | ⟨e, h⟩ <;> rw [h] <;> simp

theorem validateType_outOfRange (mem : PastEnd) (b : RowBuilder) (err : errType)
    (type : WireType) (h : b.validateType mem err type = .outOfRange) :
    b.m_columns.length ≤ b.m_currentColumn ∧ mem b.m_currentColumn = none := by
  unfold validateType currentType at h
  cases hg : b.m_columns[b.m_currentColumn]? with
  | some c =>
    rw [hg] at h
    simp only [Outcome.andThen] at h
    split at h <;> simp at h
  | none =>
    rw [hg] at h
    cases hm : mem b.m_currentColumn with
    | none => exact ⟨List.getElem?_eq_none_iff.mp hg, rfl⟩
    | some t =>
      rw [hm] at h
      simp only [Outcome.andThen] at h
      split at h <;> simp at h

theorem typedCall_run_ne_assertFailed (mem : PastEnd) (b : RowBuilder) (err : errType)
    (c : TypedCall) : c.run mem b err ≠ .assertFailed := by
  rw [typedCall_run_eq]
  rcases validateType_done_or_outOfRange mem b err c.wireType with hv | ⟨e, hv⟩
  · rw [hv]
    simp [Outcome.andThen]
  · rw [hv]
    simp only [Outcome.andThen]
    split
    · rcases reservation_cases c with hr | hr | hr <;> rw [hr] <;> simp
    · simp

theorem fresh_appended (schema : List Column) (bs : List Byte) :
    (fresh schema).appended bs = ⟨schema, ⟨bs⟩, 1⟩ := rfl

/-! ## The reservation of the variable-length operations -/

theorem addString_matching (mem : PastEnd) (b : RowBuilder) (val : List Byte)
    (hc : b.m_currentColumn < b.m_columns.length)
    (ht : b.m_columns[b.m_currentColumn].m_type = WIRE_TYPE_STRING) :
    b.addString mem errOk val =
      (TypedCall.addString val).reservation.andThen fun _ =>
        .done (b.appended (TypedCall.addString val).octets, errOk) := by
  have h := typedCall_run_eq mem b errOk (.addString val)
  simp only [TypedCall.run, TypedCall.wireType, validateType_of_lt mem b _ _ hc, ht, if_true,
    Outcome.andThen, isOk] at h
  exact h

theorem addVarbinary_matching (mem : PastEnd) (b : RowBuilder) (bufsize : Int)
    (in_value : List Byte) (hc : b.m_currentColumn < b.m_columns.length)
    (ht : b.m_columns[b.m_currentColumn].m_type = WIRE_TYPE_VARBINARY) :
    b.addVarbinary mem errOk bufsize in_value =
      (TypedCall.addVarbinary bufsize in_value).reservation.andThen fun _ =>
        .done (b.appended (TypedCall.addVarbinary bufsize in_value).octets, errOk) := by
  have h := typedCall_run_eq mem b errOk (.addVarbinary bufsize in_value)
  simp only [TypedCall.run, TypedCall.wireType, validateType_of_lt mem b _ _ hc, ht, if_true,
    Outcome.andThen, isOk] at h
  exact h

theorem addString_signedOverflow (mem : PastEnd) (b : RowBuilder) (val : List Byte)
    (hc : b.m_currentColumn < b.m_columns.length)
    (ht : b.m_columns[b.m_currentColumn].m_type = WIRE_TYPE_STRING)
    (ho : 2147483643 < toInt32 val.length) :
    b.addString mem errOk val = .signedOverflow := by
  rw [addString_matching mem b val hc ht]
  simp only [TypedCall.reservation, intAdd_overflow 4 (toInt32 val.length) (by omega)]
  rfl

theorem addVarbinary_signedOverflow (mem : PastEnd) (b : RowBuilder) (bufsize : Int)
    (in_value : List Byte) (hc : b.m_currentColumn < b.m_columns.length)
    (ht : b.m_columns[b.m_currentColumn].m_type = WIRE_TYPE_VARBINARY)
    (ho : 2147483643 < bufsize) :
    b.addVarbinary mem errOk bufsize in_value = .signedOverflow := by
  rw [addVarbinary_matching mem b bufsize in_value hc ht]
  simp only [TypedCall.reservation, intAdd_overflow 4 bufsize (by omega)]
  rfl

theorem binary64Value_NULL_DOUBLE :
    binary64Value NULL_DOUBLE = -(((2 : ℚ) ^ 53 - 1) * (2 : ℚ) ^ 971) := by
  have e1 : NULL_DOUBLE / 2 ^ 63 % 2 = 1 := by decide
  have e2 : NULL_DOUBLE / 2 ^ 52 % 2 ^ 11 = 2046 := by decide
  have e3 : NULL_DOUBLE % 2 ^ 52 = 2 ^ 52 - 1 := by decide
  simp only [binary64Value, e1, e2, e3, if_true]
  norm_num

theorem literal_rounds_to_NULL_DOUBLE :
    |NULL_DOUBLE_LITERAL - binary64Value NULL_DOUBLE| < (2 : ℚ) ^ 970 := by
  rw [binary64Value_NULL_DOUBLE, abs_lt]
  constructor <;> norm_num [NULL_DOUBLE_LITERAL]

theorem binary64Value_pred_NULL_DOUBLE :
    binary64Value (NULL_DOUBLE - 1) - binary64Value NULL_DOUBLE = (2 : ℚ) ^ 971 := by
  have e1 : (NULL_DOUBLE - 1) / 2 ^ 63 % 2 = 1 := by decide
  have e2 : (NULL_DOUBLE - 1) / 2 ^ 52 % 2 ^ 11 = 2046 := by decide
  have e3 : (NULL_DOUBLE - 1) % 2 ^ 52 = 2 ^ 52 - 2 := by decide
  rw [binary64Value_NULL_DOUBLE]
  simp only [binary64Value, e1, e2, e3, if_true]
  norm_num

theorem signed_product_ge (s a z A Z : ℚ) (hs : s = 1 ∨ s = -1) (ha0 : 0 ≤ a) (ha : a ≤ A)
    (hz0 : 0 ≤ z) (hz : z ≤ Z) : -(A * Z) ≤ s * a * z := by
  have h1 : a * z ≤ A * Z := mul_le_mul ha hz hz0 (le_trans ha0 ha)
  have h2 : 0 ≤ a * z := mul_nonneg ha0 hz0
  rcases hs with hs | hs <;> subst hs <;> linarith

theorem NULL_DOUBLE_le_finite (bits : Nat) (h : isFinite64 bits) :
    binary64Value NULL_DOUBLE ≤ binary64Value bits := by
  rw [binary64Value_NULL_DOUBLE]
  have hs : (if bits / 2 ^ 63 % 2 = 1 then (-1 : ℚ) else 1) = 1 ∨
      (if bits / 2 ^ 63 % 2 = 1 then (-1 : ℚ) else 1) = -1 := by
    split
    · exact Or.inr rfl
    · exact Or.inl rfl
  have hfn : bits % 2 ^ 52 ≤ 2 ^ 52 - 1 := by omega
  have hf : ((bits % 2 ^ 52 : Nat) : ℚ) ≤ (2 : ℚ) ^ 52 - 1 := by
    have h2 : ((bits % 2 ^ 52 : Nat) : ℚ) ≤ ((2 ^ 52 - 1 : Nat) : ℚ) := Nat.cast_le.mpr hfn
    have h3 : ((2 ^ 52 - 1 : Nat) : ℚ) = (2 : ℚ) ^ 52 - 1 := by norm_num
    rw [h3] at h2
    exact h2
  have hf0 : (0 : ℚ) ≤ ((bits % 2 ^ 52 : Nat) : ℚ) := Nat.cast_nonneg _
  have he : bits / 2 ^ 52 % 2 ^ 11 ≤ 2046 := by
    unfold isFinite64 at h
    omega
  unfold binary64Value
  simp only []
  split
  · have hz : (2 : ℚ) ^ (-1074 : Int) ≤ (2 : ℚ) ^ ((971 : Nat) : Int) :=
      zpow_le_zpow_right₀ (by norm_num) (by omega)
    have hz0 : (0 : ℚ) ≤ (2 : ℚ) ^ (-1074 : Int) := le_of_lt (zpow_pos (by norm_num) _)
    have key := signed_product_ge _ _ _ ((2 : ℚ) ^ 53 - 1) ((2 : ℚ) ^ ((971 : Nat) : Int)) hs hf0
      (by linarith [show (2 : ℚ) ^ 53 = 2 * 2 ^ 52 by norm_num,
        show (0 : ℚ) < 2 ^ 52 by norm_num]) hz0 hz
    rw [zpow_natCast] at key
    exact key
  · have hz : (2 : ℚ) ^ (((bits / 2 ^ 52 % 2 ^ 11 : Nat) : Int) - 1075) ≤ (2 : ℚ) ^ ((971 : Nat) : Int) :=
      zpow_le_zpow_right₀ (by norm_num) (by omega)
    have hz0 : (0 : ℚ) ≤ (2 : ℚ) ^ (((bits / 2 ^ 52 % 2 ^ 11 : Nat) : Int) - 1075) :=
      le_of_lt (zpow_pos (by norm_num) _)
    have key := signed_product_ge _ ((2 : ℚ) ^ 52 + ((bits % 2 ^ 52 : Nat) : ℚ)) _
      ((2 : ℚ) ^ 53 - 1) ((2 : ℚ) ^ ((971 : Nat) : Int)) hs
      (by positivity)
      (by linarith [show (2 : ℚ) ^ 53 = 2 * 2 ^ 52 by norm_num]) hz0 hz
    rw [zpow_natCast] at key
    exact key

/-! ## The claims -/

/-- C1: with the cursor inside the schema and no error pending, a typed
operation whose wire type differs from the type of the column under the cursor
reports ColumnMismatch and hands back the encoder exactly as it was: same
cursor, same sink bytes. -/
theorem C1_mismatch_reports_and_keeps_state (mem : PastEnd) (b : RowBuilder) (c : TypedCall)
    (hc : b.m_currentColumn < b.m_columns.length)
    (ht : c.wireType ≠ b.m_columns[b.m_currentColumn].m_type) :
    c.run mem b errOk = .done (b, errColumnMismatchException) := by
  cases c <;>
    simp [TypedCall.run, addInt8, addInt16, addInt32, addInt64, addDouble, addString,
      addVarbinary, validateType_of_lt mem b _ _ hc, Outcome.andThen, isOk,
      Ne.symm ht, TypedCall.wireType] <;>
    simp_all [TypedCall.wireType, Ne.symm, isOk]

/-- Witness of C1: `addInt32(7)` on a fresh encoder over the schema `[BIGINT]`. -/
theorem C1_witness :
    (fresh [⟨WIRE_TYPE_BIGINT⟩]).m_currentColumn < (fresh [⟨WIRE_TYPE_BIGINT⟩]).m_columns.length ∧
    TypedCall.run (fun _ => none) (fresh [⟨WIRE_TYPE_BIGINT⟩]) errOk (.addInt32 7) =
      .done (fresh [⟨WIRE_TYPE_BIGINT⟩], errColumnMismatchException) :=
  ⟨by decide, C1_mismatch_reports_and_keeps_state _ _ _ (by decide) (by decide)⟩

/-- C2: the spec's scenario on the code. Schema `[BIGINT]`, `addInt64(1)` fills the
row; the second call `addInt64(2)` reads `m_columns[1]` of a one-element vector,
because the guard of `validateType` only rejects a cursor strictly greater than
the column count and comes after the read. Where the read traps the call does
not return at all; where it finds a stale BIGINT element the call succeeds,
writes eight more octets and moves the cursor to 2. In neither case does it
report ColumnMismatch with the sink unchanged. The same holds for every schema,
every sink and every typed operation once the cursor is at the column count: a
stale element of the operation's own type lets the call through to its
reservation and write. -/
theorem C2_row_complete_typed_call_reads_past_end :
    (fresh [⟨WIRE_TYPE_BIGINT⟩]).addInt64 (fun _ => none) errOk 1 =
      .done (⟨[⟨WIRE_TYPE_BIGINT⟩], ⟨[0, 0, 0, 0, 0, 0, 0, 1]⟩, 1⟩, errOk) ∧
    addInt64 (fun _ => none) ⟨[⟨WIRE_TYPE_BIGINT⟩], ⟨[0, 0, 0, 0, 0, 0, 0, 1]⟩, 1⟩ errOk 2 =
      .outOfRange ∧
    addInt64 (fun _ => some WIRE_TYPE_BIGINT)
        ⟨[⟨WIRE_TYPE_BIGINT⟩], ⟨[0, 0, 0, 0, 0, 0, 0, 1]⟩, 1⟩ errOk 2 =
      .done (⟨[⟨WIRE_TYPE_BIGINT⟩], ⟨[0, 0, 0, 0, 0, 0, 0, 1, 0, 0, 0, 0, 0, 0, 0, 2]⟩, 2⟩,
        errOk) ∧
    (∀ (cols : List Column) (buf : ScopedByteBuffer) (c : TypedCall),
      c.run (fun _ => none) ⟨cols, buf, cols.length⟩ errOk = .outOfRange) ∧
    (∀ (cols : List Column) (buf : ScopedByteBuffer) (c : TypedCall),
      (∃ bs : List Byte, 0 < bs.length ∧
        c.run (fun _ => some c.wireType) ⟨cols, buf, cols.length⟩ errOk =
          .done (⟨cols, ⟨buf.bytes ++ bs⟩, cols.length + 1⟩, errOk)) ∨
      c.run (fun _ => some c.wireType) ⟨cols, buf, cols.length⟩ errOk = .signedOverflow ∨
      c.run (fun _ => some c.wireType) ⟨cols, buf, cols.length⟩ errOk = .unreservedWrite) ∧
    (∀ (cols : List Column) (buf : ScopedByteBuffer) (val : Int),
      addInt64 (fun _ => some WIRE_TYPE_BIGINT) ⟨cols, buf, cols.length⟩ errOk val =
        .done (⟨cols, ⟨buf.bytes ++ beBytes 8 (toUnsigned 64 val)⟩, cols.length + 1⟩,
          errOk)) := by
  refine ⟨rfl, rfl, rfl, ?_, ?_, ?_⟩
  · intro cols buf c
    cases c <;>
      simp [TypedCall.run, addInt8, addInt16, addInt32, addInt64, addDouble, addString,
        addVarbinary, validateType, currentType_at_end, Outcome.andThen]
  · intro cols buf c
    have hv : validateType (fun _ => some c.wireType) ⟨cols, buf, cols.length⟩ errOk
        c.wireType = .done errOk := by
      simp [validateType, currentType_at_end, Outcome.andThen]
    have hrun := typedCall_run_eq (fun _ => some c.wireType) ⟨cols, buf, cols.length⟩ errOk c
    rw [hv] at hrun
    simp only [Outcome.andThen, isOk, if_true] at hrun
    rcases reservation_cases c with hr | hr | hr
    · left
      refine ⟨c.octets, ?_, ?_⟩
      · cases c <;> simp [TypedCall.octets, beBytes]
      · rw [hrun, hr]
        rfl
    · right
      left
      rw [hrun, hr]
    · right
      right
      rw [hrun, hr]
  · intro cols buf val
    simp [addInt64, validateType, currentType_at_end, Outcome.andThen, isOk,
      ScopedByteBuffer.putInt64, ScopedByteBuffer.putFixed, ScopedByteBuffer.ensureRemaining]

/-- C3: `addNull` with the cursor at the column count. Schema `[BIGINT]` after
`addInt64(1)`: the guard `m_currentColumn > m_columns.size()` is `1 > 1`, false,
so the `switch` reads `m_columns[1]` out of range. Where the read traps the call
does not return; where it finds a stale STRING element the call writes
`FF FF FF FF` and moves the cursor to 2, with no error reported. For every
schema and every sink, whatever lies behind the last column, `addNull` with the
cursor at the column count never ends as "ColumnMismatch, state unchanged". -/
theorem C3_row_complete_addNull_reads_past_end :
    addNull (fun _ => none) ⟨[⟨WIRE_TYPE_BIGINT⟩], ⟨[0, 0, 0, 0, 0, 0, 0, 1]⟩, 1⟩ errOk =
      .outOfRange ∧
    addNull (fun _ => some WIRE_TYPE_STRING)
        ⟨[⟨WIRE_TYPE_BIGINT⟩], ⟨[0, 0, 0, 0, 0, 0, 0, 1]⟩, 1⟩ errOk =
      .done (⟨[⟨WIRE_TYPE_BIGINT⟩], ⟨[0, 0, 0, 0, 0, 0, 0, 1, 255, 255, 255, 255]⟩, 2⟩,
        errOk) ∧
    (∀ (mem : PastEnd) (cols : List Column) (buf : ScopedByteBuffer),
      addNull mem ⟨cols, buf, cols.length⟩ errOk ≠
        .done (⟨cols, buf, cols.length⟩, errColumnMismatchException)) := by
  refine ⟨rfl, rfl, ?_⟩
  intro mem cols buf
  unfold addNull
  rw [currentType_at_end]
  cases hm : mem cols.length with
  | none => simp [Outcome.andThen]
  | some t =>
    cases t <;>
      simp [Outcome.andThen, addInt8, addInt16, addInt32, addInt64, addDouble, validateType,
        currentType_at_end, hm, isOk, setErr, ScopedByteBuffer.putInt8,
        ScopedByteBuffer.putInt16, ScopedByteBuffer.putInt32, ScopedByteBuffer.putInt64,
        ScopedByteBuffer.putDouble, ScopedByteBuffer.putFixed, ScopedByteBuffer.ensureRemaining]

/-- C4: with the cursor inside the schema, no error pending and the column under
the cursor of the operation's type, each fixed-width operation succeeds, moves
the cursor on by one and adds to the end of the sink exactly 1, 2, 4, 8 and 8
octets: the value's two's complement pattern (the binary64 pattern for a
double), most significant octet first. Read back most significant first, the
added octets denote the value again. -/
theorem C4_fixed_width_append (mem : PastEnd) (b : RowBuilder)
    (hc : b.m_currentColumn < b.m_columns.length) :
    (∀ val : Int, b.m_columns[b.m_currentColumn].m_type = WIRE_TYPE_TINYINT →
      b.addInt8 mem errOk val = .done (b.appended (beBytes 1 (toUnsigned 8 val)), errOk)) ∧
    (∀ val : Int, b.m_columns[b.m_currentColumn].m_type = WIRE_TYPE_SMALLINT →
      b.addInt16 mem errOk val = .done (b.appended (beBytes 2 (toUnsigned 16 val)), errOk)) ∧
    (∀ val : Int, b.m_columns[b.m_currentColumn].m_type = WIRE_TYPE_INTEGER →
      b.addInt32 mem errOk val = .done (b.appended (beBytes 4 (toUnsigned 32 val)), errOk)) ∧
    (∀ val : Int, b.m_columns[b.m_currentColumn].m_type = WIRE_TYPE_BIGINT →
      b.addInt64 mem errOk val = .done (b.appended (beBytes 8 (toUnsigned 64 val)), errOk)) ∧
    (∀ val : Double, b.m_columns[b.m_currentColumn].m_type = WIRE_TYPE_FLOAT →
      b.addDouble mem errOk val = .done (b.appended (beBytes 8 val), errOk)) ∧
    (∀ bs : List Byte, (b.appended bs).m_currentColumn = b.m_currentColumn + 1 ∧
      (b.appended bs).m_buffer.bytes = b.m_buffer.bytes ++ bs ∧
      (b.appended bs).m_columns = b.m_columns) ∧
    (∀ u : Nat, beBytes 1 u = [octet u 0] ∧ beBytes 2 u = [octet u 1, octet u 0] ∧
      beBytes 4 u = [octet u 3, octet u 2, octet u 1, octet u 0] ∧
      beBytes 8 u =
        [octet u 7, octet u 6, octet u 5, octet u 4, octet u 3, octet u 2, octet u 1, octet u 0]) ∧
    (∀ val : Int, -128 ≤ val ∧ val ≤ 127 →
      toSigned 8 (beValue (beBytes 1 (toUnsigned 8 val))) = val) ∧
    (∀ val : Int, -32768 ≤ val ∧ val ≤ 32767 →
      toSigned 16 (beValue (beBytes 2 (toUnsigned 16 val))) = val) ∧
    (∀ val : Int, -2147483648 ≤ val ∧ val ≤ 2147483647 →
      toSigned 32 (beValue (beBytes 4 (toUnsigned 32 val))) = val) ∧
    (∀ val : Int, -9223372036854775808 ≤ val ∧ val ≤ 9223372036854775807 →
      toSigned 64 (beValue (beBytes 8 (toUnsigned 64 val))) = val) ∧
    (∀ val : Double, val < 2 ^ 64 → beValue (beBytes 8 val) = val) := by
  refine ⟨fun val ht => addInt8_ok mem b val hc ht, fun val ht => addInt16_ok mem b val hc ht,
    fun val ht => addInt32_ok mem b val hc ht, fun val ht => addInt64_ok mem b val hc ht,
    fun val ht => addDouble_ok mem b val hc ht, fun bs => ⟨rfl, rfl, rfl⟩,
    fun u => ⟨rfl, rfl, rfl, rfl⟩, ?_, ?_, ?_, ?_, ?_⟩
  · intro val h
    rw [beValue_beBytes]
    exact toSigned_toUnsigned_8 val h
  · intro val h
    rw [beValue_beBytes]
    exact toSigned_toUnsigned_16 val h
  · intro val h
    rw [beValue_beBytes]
    exact toSigned_toUnsigned_32 val h
  · intro val h
    rw [beValue_beBytes]
    exact toSigned_toUnsigned_64 val h
  · intro val h
    have h2 : (val : Nat) < 256 ^ 8 := lt_of_lt_of_le h (by norm_num)
    rw [beValue_beBytes]
    exact Nat.mod_eq_of_lt h2

/-- Witness of C4: `addInt64(-2)` on a fresh encoder over the schema `[BIGINT]`. -/
theorem C4_witness :
    (fresh [⟨WIRE_TYPE_BIGINT⟩]).m_currentColumn < (fresh [⟨WIRE_TYPE_BIGINT⟩]).m_columns.length ∧
    (fresh [⟨WIRE_TYPE_BIGINT⟩]).addInt64 (fun _ => none) errOk (-2) =
      .done (⟨[⟨WIRE_TYPE_BIGINT⟩], ⟨[255, 255, 255, 255, 255, 255, 255, 254]⟩, 1⟩, errOk) :=
  ⟨by decide,
    (C4_fixed_width_append (fun _ => none) (fresh [⟨WIRE_TYPE_BIGINT⟩]) (by decide)).2.2.2.1
      (-2) rfl⟩

/-- C5: `addString` and `addVarbinary` do not succeed for every payload of up to
`2^31 - 1` octets. They reserve `4 + static_cast<int32_t>(val.size())` and
`4 + bufsize` octets, sums computed in `int`: for a payload of `2^31 - 4` to
`2^31 - 1` octets the sum is above the largest `int`, a signed overflow, which
C++ leaves undefined, and the call never gets to a write that its reservation
covers. Shown on fresh encoders over `[STRING]` and `[VARBINARY]` for payloads of
`2^31 - 4` and `2^31 - 1` octets; at `2^31 - 5` octets the sum is still the
largest `int`. -/
theorem C5_reservation_overflows_near_the_length_limit :
    (List.replicate 2147483644 (0 : Byte)).length ≤ 2 ^ 31 - 1 ∧
    (List.replicate 2147483647 (0 : Byte)).length ≤ 2 ^ 31 - 1 ∧
    intAdd 4 (toInt32 2147483643) = .done 2147483647 ∧
    intAdd 4 (toInt32 2147483644) = .signedOverflow ∧
    intAdd 4 (toInt32 2147483647) = .signedOverflow ∧
    addString (fun _ => none) (fresh [⟨WIRE_TYPE_STRING⟩]) errOk
        (List.replicate 2147483644 (0 : Byte)) = .signedOverflow ∧
    addString (fun _ => none) (fresh [⟨WIRE_TYPE_STRING⟩]) errOk
        (List.replicate 2147483647 (0 : Byte)) = .signedOverflow ∧
    addVarbinary (fun _ => none) (fresh [⟨WIRE_TYPE_VARBINARY⟩]) errOk 2147483644
        (List.replicate 2147483644 (0 : Byte)) = .signedOverflow ∧
    addVarbinary (fun _ => none) (fresh [⟨WIRE_TYPE_VARBINARY⟩]) errOk 2147483647
        (List.replicate 2147483647 (0 : Byte)) = .signedOverflow := by
  refine ⟨?_, ?_, by decide, by decide, by decide, ?_, ?_, ?_, ?_⟩
  · rw [List.length_replicate]
    norm_num
  · rw [List.length_replicate]
    norm_num
  · exact addString_signedOverflow _ _ _ (by decide) rfl
      (by rw [List.length_replicate]; decide)
  · exact addString_signedOverflow _ _ _ (by decide) rfl
      (by rw [List.length_replicate]; decide)
  · exact addVarbinary_signedOverflow _ _ _ _ (by decide) rfl (by decide)
  · exact addVarbinary_signedOverflow _ _ _ _ (by decide) rfl (by decide)

/-- C6: with the cursor inside the schema and no error pending, `addNull`
succeeds, moves the cursor on by one and adds to the end of the sink exactly the
NULL sentinel of the column under the cursor: `80 00 00 00 00 00 00 00` for
BIGINT, `80 00 00 00` for INTEGER, `80 00` for SMALLINT, `80` for TINYINT, and
the four octets `FF FF FF FF` with nothing after them for STRING and VARBINARY.
Read back as signed big-endian integers these are the minimal int64, int32,
int16 and int8 and the length -1. -/
theorem C6_addNull_writes_the_sentinel (mem : PastEnd) (b : RowBuilder)
    (hc : b.m_currentColumn < b.m_columns.length) :
    (b.m_columns[b.m_currentColumn].m_type = WIRE_TYPE_BIGINT →
      b.addNull mem errOk = .done (b.appended [0x80, 0, 0, 0, 0, 0, 0, 0], errOk)) ∧
    (b.m_columns[b.m_currentColumn].m_type = WIRE_TYPE_INTEGER →
      b.addNull mem errOk = .done (b.appended [0x80, 0, 0, 0], errOk)) ∧
    (b.m_columns[b.m_currentColumn].m_type = WIRE_TYPE_SMALLINT →
      b.addNull mem errOk = .done (b.appended [0x80, 0], errOk)) ∧
    (b.m_columns[b.m_currentColumn].m_type = WIRE_TYPE_TINYINT →
      b.addNull mem errOk = .done (b.appended [0x80], errOk)) ∧
    (b.m_columns[b.m_currentColumn].m_type = WIRE_TYPE_STRING →
      b.addNull mem errOk = .done (b.appended [0xFF, 0xFF, 0xFF, 0xFF], errOk)) ∧
    (b.m_columns[b.m_currentColumn].m_type = WIRE_TYPE_VARBINARY →
      b.addNull mem errOk = .done (b.appended [0xFF, 0xFF, 0xFF, 0xFF], errOk)) ∧
    (∀ bs : List Byte, (b.appended bs).m_currentColumn = b.m_currentColumn + 1 ∧
      (b.appended bs).m_buffer.bytes = b.m_buffer.bytes ++ bs ∧
      (b.appended bs).m_columns = b.m_columns) ∧
    toSigned 64 (beValue [0x80, 0, 0, 0, 0, 0, 0, 0]) = -(2 : Int) ^ 63 ∧
    toSigned 32 (beValue [0x80, 0, 0, 0]) = -(2 : Int) ^ 31 ∧
    toSigned 16 (beValue [0x80, 0]) = -(2 : Int) ^ 15 ∧
    toSigned 8 (beValue [0x80]) = -(2 : Int) ^ 7 ∧
    toSigned 32 (beValue [0xFF, 0xFF, 0xFF, 0xFF]) = -1 := by
  refine ⟨?_, ?_, ?_, ?_, ?_, ?_, fun bs => ⟨rfl, rfl, rfl⟩, by decide, by decide, by decide,
    by decide, by decide⟩ <;>
  · intro ht
    have h := addNull_ok mem b hc (by rw [ht]; trivial)
    rw [ht] at h
    exact h

/-- Witness of C6: `addNull()` on a fresh encoder over the schema `[STRING]`. -/
theorem C6_witness :
    (fresh [⟨WIRE_TYPE_STRING⟩]).m_currentColumn < (fresh [⟨WIRE_TYPE_STRING⟩]).m_columns.length ∧
    (fresh [⟨WIRE_TYPE_STRING⟩]).addNull (fun _ => none) errOk =
      .done (⟨[⟨WIRE_TYPE_STRING⟩], ⟨[255, 255, 255, 255]⟩, 1⟩, errOk) :=
  ⟨by decide,
    (C6_addNull_writes_the_sentinel (fun _ => none) (fresh [⟨WIRE_TYPE_STRING⟩])
      (by decide)).2.2.2.2.1 rfl⟩

/-- C7: not every row of values of the columns' types is encoded. Over the
schema `[STRING]` the row holding one string of `2^31 - 4` octets, a value whose
length fits a signed 32-bit integer, makes `addString` compute the reservation
`4 + 2147483644` in `int`: a signed overflow, which C++ leaves undefined, so the
call does not succeed as the claim has it. The scenario of the claim itself,
schema `[BIGINT, STRING]` with `addInt64(5)` and `addString("hi")`, leaves the
fourteen octets and the cursor 2 that the claim names. -/
theorem C7_row_with_a_payload_near_the_limit_overflows :
    rowHasType [some (.string (List.replicate 2147483644 (0 : Byte)))]
      [⟨WIRE_TYPE_STRING⟩] ∧
    encodeRow (fun _ => none) (fresh [⟨WIRE_TYPE_STRING⟩])
        [some (.string (List.replicate 2147483644 (0 : Byte)))] = .signedOverflow ∧
    encodeRow (fun _ => none) (fresh [⟨WIRE_TYPE_BIGINT⟩, ⟨WIRE_TYPE_STRING⟩])
        [some (.int64 5), some (.string [0x68, 0x69])] =
      .done (⟨[⟨WIRE_TYPE_BIGINT⟩, ⟨WIRE_TYPE_STRING⟩],
        ⟨[0, 0, 0, 0, 0, 0, 0, 5, 0, 0, 0, 2, 0x68, 0x69]⟩, 2⟩, errOk) := by
  refine ⟨?_, ?_, ?_⟩
  · show (List.replicate 2147483644 (0 : Byte)).length ≤ 2147483647 ∧ True
    rw [List.length_replicate]
    exact ⟨by norm_num, trivial⟩
  · rw [encodeRow_string_head,
      addString_signedOverflow (fun _ => none) (fresh [⟨WIRE_TYPE_STRING⟩])
        (List.replicate 2147483644 (0 : Byte)) (by decide) rfl
        (by rw [List.length_replicate]; decide)]
    rfl
  · exact encodeRow_fresh _ _ _ (by decide) (by decide)

/-- C8, as stated, fails: a BIGINT column given the non-null value `INT64_MIN` is
encoded as `80 00 00 00 00 00 00 00`, the very octets of NULL, and a decoder that
reads the sentinel back as NULL yields NULL, not the value. The same holds for
`INT8_MIN`, `INT16_MIN`, `INT32_MIN` and the double `-1.7976931348623157E+308` in
columns of their types. And a row holding a string of `2^31 - 4` octets is not
encoded at all: the reservation `4 + 2147483644` overflows `int`. -/
theorem C8_sentinel_value_reads_back_as_null :
    rowHasType [some (.int64 INT64_MIN)] [⟨WIRE_TYPE_BIGINT⟩] ∧
    encodeRow (fun _ => none) (fresh [⟨WIRE_TYPE_BIGINT⟩]) [some (.int64 INT64_MIN)] =
      .done (⟨[⟨WIRE_TYPE_BIGINT⟩], ⟨[0x80, 0, 0, 0, 0, 0, 0, 0]⟩, 1⟩, errOk) ∧
    decodeRow [⟨WIRE_TYPE_BIGINT⟩] [0x80, 0, 0, 0, 0, 0, 0, 0] = some [none] ∧
    (some [none] : Option (List Cell)) ≠ some [some (.int64 INT64_MIN)] ∧
    encodeRow (fun _ => none) (fresh [⟨WIRE_TYPE_TINYINT⟩]) [some (.int8 INT8_MIN)] =
      .done (⟨[⟨WIRE_TYPE_TINYINT⟩], ⟨[0x80]⟩, 1⟩, errOk) ∧
    decodeRow [⟨WIRE_TYPE_TINYINT⟩] [0x80] = some [none] ∧
    encodeRow (fun _ => none) (fresh [⟨WIRE_TYPE_SMALLINT⟩]) [some (.int16 INT16_MIN)] =
      .done (⟨[⟨WIRE_TYPE_SMALLINT⟩], ⟨[0x80, 0]⟩, 1⟩, errOk) ∧
    decodeRow [⟨WIRE_TYPE_SMALLINT⟩] [0x80, 0] = some [none] ∧
    encodeRow (fun _ => none) (fresh [⟨WIRE_TYPE_INTEGER⟩]) [some (.int32 INT32_MIN)] =
      .done (⟨[⟨WIRE_TYPE_INTEGER⟩], ⟨[0x80, 0, 0, 0]⟩, 1⟩, errOk) ∧
    decodeRow [⟨WIRE_TYPE_INTEGER⟩] [0x80, 0, 0, 0] = some [none] ∧
    encodeRow (fun _ => none) (fresh [⟨WIRE_TYPE_FLOAT⟩]) [some (.double NULL_DOUBLE)] =
      .done (⟨[⟨WIRE_TYPE_FLOAT⟩], ⟨[0xFF, 0xEF, 0xFF, 0xFF, 0xFF, 0xFF, 0xFF, 0xFF]⟩, 1⟩,
        errOk) ∧
    decodeRow [⟨WIRE_TYPE_FLOAT⟩] [0xFF, 0xEF, 0xFF, 0xFF, 0xFF, 0xFF, 0xFF, 0xFF] =
      some [none] ∧
    rowHasType [some (.string (List.replicate 2147483644 (0 : Byte)))]
      [⟨WIRE_TYPE_STRING⟩] ∧
    encodeRow (fun _ => none) (fresh [⟨WIRE_TYPE_STRING⟩])
        [some (.string (List.replicate 2147483644 (0 : Byte)))] = .signedOverflow := by
  refine ⟨by decide, rfl, by decide, by decide, rfl, by decide, rfl, by decide, rfl, by decide,
    rfl, by decide, ?_, ?_⟩
  · show (List.replicate 2147483644 (0 : Byte)).length ≤ 2147483647 ∧ True
    rw [List.length_replicate]
    exact ⟨by norm_num, trivial⟩
  · rw [encodeRow_string_head,
      addString_signedOverflow (fun _ => none) (fresh [⟨WIRE_TYPE_STRING⟩])
        (List.replicate 2147483644 (0 : Byte)) (by decide) rfl
        (by rw [List.length_replicate]; decide)]
    rfl

/-- C8, amended: for every schema and every row of inputs matching the schema's
types in order, in which no non-null fixed-width value is the NULL sentinel of
its own type and no payload is longer than `2^31 - 5` octets, encoding the row
on a fresh encoder succeeds and decoding the sink per the wire layout yields the
row again: every value as itself, every NULL as NULL, for all seven column
types. Longer payloads are left out: there the reservation `4 + size` of
`addString` and `addVarbinary` overflows. -/
theorem C8_round_trip_off_the_sentinels (mem : PastEnd) (schema : List Column)
    (cells : List Cell) (h : rowHasType cells schema) (hs : ∀ c ∈ cells, notSentinel c)
    (hr : ∀ c ∈ cells, reservable c) :
    ∃ b : RowBuilder, encodeRow mem (fresh schema) cells = .done (b, errOk) ∧
      decodeRow schema b.m_buffer.bytes = some cells :=
  ⟨⟨schema, ⟨rowImage schema cells⟩, schema.length⟩, encodeRow_fresh mem schema cells h hr,
    decodeRow_rowImage schema cells h hs⟩

/-- Witness of the amended C8: a row over six columns with values, NULLs and an
empty string. -/
theorem C8_witness :
    rowHasType [some (.int8 (-3)), none, some (.string []), none, some (.double 0), none]
      [⟨WIRE_TYPE_TINYINT⟩, ⟨WIRE_TYPE_BIGINT⟩, ⟨WIRE_TYPE_STRING⟩, ⟨WIRE_TYPE_VARBINARY⟩,
        ⟨WIRE_TYPE_FLOAT⟩, ⟨WIRE_TYPE_FLOAT⟩] ∧
    ∃ b : RowBuilder,
      encodeRow (fun _ => none)
        (fresh [⟨WIRE_TYPE_TINYINT⟩, ⟨WIRE_TYPE_BIGINT⟩, ⟨WIRE_TYPE_STRING⟩, ⟨WIRE_TYPE_VARBINARY⟩,
          ⟨WIRE_TYPE_FLOAT⟩, ⟨WIRE_TYPE_FLOAT⟩])
        [some (.int8 (-3)), none, some (.string []), none, some (.double 0), none] =
          .done (b, errOk) ∧
      decodeRow [⟨WIRE_TYPE_TINYINT⟩, ⟨WIRE_TYPE_BIGINT⟩, ⟨WIRE_TYPE_STRING⟩,
          ⟨WIRE_TYPE_VARBINARY⟩, ⟨WIRE_TYPE_FLOAT⟩, ⟨WIRE_TYPE_FLOAT⟩] b.m_buffer.bytes =
        some [some (.int8 (-3)), none, some (.string []), none, some (.double 0), none] :=
  ⟨by decide, C8_round_trip_off_the_sentinels _ _ _ (by decide) (by decide) (by decide)⟩

/-- C9: from any encoder state `reset` yields a state with an empty sink, cursor
0 and the schema it had; `reset` twice is `reset` once. -/
theorem C9_reset_clears_and_is_idempotent (b : RowBuilder) :
    b.reset.m_buffer.bytes.length = 0 ∧ b.reset.m_currentColumn = 0 ∧
    b.reset.m_columns = b.m_columns ∧ b.reset.reset = b.reset :=
  ⟨rfl, rfl, rfl, rfl⟩

/-- C10: the cursor can leave the range `[0, N]`. Schema `[BIGINT]`, a fresh
encoder, `addInt64(1)` and `addInt64(2)`: the second call starts with the cursor
at N = 1, reads `m_columns[1]` past the end, and where a stale BIGINT element
lies there it succeeds and leaves the cursor at 2, above the column count. The
bound on the cursor rests on the guard `m_currentColumn > m_columns.size()`,
which lets the cursor value N through. -/
theorem C10_cursor_passes_the_column_count :
    runCalls (fun _ => some WIRE_TYPE_BIGINT) (fresh [⟨WIRE_TYPE_BIGINT⟩]) errOk
        [.typed (.addInt64 1), .typed (.addInt64 2)] =
      .done (⟨[⟨WIRE_TYPE_BIGINT⟩], ⟨[0, 0, 0, 0, 0, 0, 0, 1, 0, 0, 0, 0, 0, 0, 0, 2]⟩, 2⟩,
        errOk) ∧
    ¬ (2 ≤ ([⟨WIRE_TYPE_BIGINT⟩] : List Column).length) := by
  refine ⟨rfl, by decide⟩

/-- C11: failure is not atomic for `addNull` on a variable-length column. Schema
`[STRING]`, fresh encoder: `addInt64(err, 1)` fails with ColumnMismatch and
leaves the encoder alone; `addNull(err)` with that error still in `err` writes
`FF FF FF FF` and moves the cursor to 1, and the call ends with the error in
`err`. Lines 128-137 call `putInt32(err, -1)` and `m_currentColumn++` with no
`isOk(err)` test between or before them, the test every typed operation has, so
`addString` and `addNull` on a BIGINT column in the same situation change
nothing. The same holds on a VARBINARY column and at any cursor position. -/
theorem C11_addNull_advances_although_the_call_ends_in_error :
    addInt64 (fun _ => none) (fresh [⟨WIRE_TYPE_STRING⟩]) errOk 1 =
      .done (fresh [⟨WIRE_TYPE_STRING⟩], errColumnMismatchException) ∧
    addNull (fun _ => none) (fresh [⟨WIRE_TYPE_STRING⟩]) errColumnMismatchException =
      .done (⟨[⟨WIRE_TYPE_STRING⟩], ⟨[255, 255, 255, 255]⟩, 1⟩, errColumnMismatchException) ∧
    runCalls (fun _ => none) (fresh [⟨WIRE_TYPE_STRING⟩]) errOk
        [.typed (.addInt64 1), .addNull] =
      .done (⟨[⟨WIRE_TYPE_STRING⟩], ⟨[255, 255, 255, 255]⟩, 1⟩, errColumnMismatchException) ∧
    addNull (fun _ => none) (fresh [⟨WIRE_TYPE_VARBINARY⟩]) errColumnMismatchException =
      .done (⟨[⟨WIRE_TYPE_VARBINARY⟩], ⟨[255, 255, 255, 255]⟩, 1⟩,
        errColumnMismatchException) ∧
    addString (fun _ => none) (fresh [⟨WIRE_TYPE_STRING⟩]) errColumnMismatchException [] =
      .done (fresh [⟨WIRE_TYPE_STRING⟩], errColumnMismatchException) ∧
    addNull (fun _ => none) (fresh [⟨WIRE_TYPE_BIGINT⟩]) errColumnMismatchException =
      .done (fresh [⟨WIRE_TYPE_BIGINT⟩], errColumnMismatchException) ∧
    (∀ (mem : PastEnd) (pre post : List Column) (buf : ScopedByteBuffer),
      addNull mem ⟨pre ++ ⟨WIRE_TYPE_STRING⟩ :: post, buf, pre.length⟩
          errColumnMismatchException =
        .done (⟨pre ++ ⟨WIRE_TYPE_STRING⟩ :: post, ⟨buf.bytes ++ [255, 255, 255, 255]⟩,
          pre.length + 1⟩, errColumnMismatchException)) := by
  refine ⟨rfl, rfl, rfl, rfl, rfl, rfl, ?_⟩
  intro mem pre post buf
  have hn : ¬ pre.length > (pre ++ (⟨WIRE_TYPE_STRING⟩ : Column) :: post).length := by
    simp
  have hg : (pre ++ (⟨WIRE_TYPE_STRING⟩ : Column) :: post)[pre.length]? =
      some ⟨WIRE_TYPE_STRING⟩ := by
    rw [List.getElem?_append_right (le_refl _)]
    simp
  simp only [addNull, hn, if_false, currentType, hg, Outcome.andThen,
    ScopedByteBuffer.putInt32, ScopedByteBuffer.putFixed, ScopedByteBuffer.ensureRemaining]
  rfl

/-- C13: `addNull` on a FLOAT column, the cursor inside the schema and no error
pending, succeeds, moves the cursor on by one and adds exactly the eight octets
`FF EF FF FF FF FF FF FF`; on a fresh encoder over the schema `[FLOAT]` the sink
then holds these eight octets and the cursor is 1. Read most significant first
they are the binary64 pattern `0xFFEFFFFFFFFFFFFF`, which denotes
`-(2^53 - 1) * 2^971`: no finite double is smaller, the doubles there lie `2^971`
apart, and the literal `-1.7976931348623157E+308` is less than half that
distance, `2^970`, away from it, so the literal denotes this double. -/
theorem C13_addNull_on_float_writes_the_most_negative_double (mem : PastEnd) (b : RowBuilder)
    (hc : b.m_currentColumn < b.m_columns.length)
    (ht : b.m_columns[b.m_currentColumn].m_type = WIRE_TYPE_FLOAT) :
    b.addNull mem errOk =
      .done (b.appended [0xFF, 0xEF, 0xFF, 0xFF, 0xFF, 0xFF, 0xFF, 0xFF], errOk) ∧
    (fresh [⟨WIRE_TYPE_FLOAT⟩]).addNull mem errOk =
      .done (⟨[⟨WIRE_TYPE_FLOAT⟩], ⟨[0xFF, 0xEF, 0xFF, 0xFF, 0xFF, 0xFF, 0xFF, 0xFF]⟩, 1⟩,
        errOk) ∧
    beValue [0xFF, 0xEF, 0xFF, 0xFF, 0xFF, 0xFF, 0xFF, 0xFF] = NULL_DOUBLE ∧
    binary64Value NULL_DOUBLE = -(((2 : ℚ) ^ 53 - 1) * (2 : ℚ) ^ 971) ∧
    |NULL_DOUBLE_LITERAL - binary64Value NULL_DOUBLE| < (2 : ℚ) ^ 970 ∧
    binary64Value (NULL_DOUBLE - 1) - binary64Value NULL_DOUBLE = (2 : ℚ) ^ 971 ∧
    (∀ bits : Nat, isFinite64 bits → binary64Value NULL_DOUBLE ≤ binary64Value bits) := by
  refine ⟨?_, ?_, by decide, binary64Value_NULL_DOUBLE, literal_rounds_to_NULL_DOUBLE,
    binary64Value_pred_NULL_DOUBLE, NULL_DOUBLE_le_finite⟩
  · have h := addNull_ok mem b hc (by rw [ht]; trivial)
    rw [ht] at h
    exact h
  · exact addNull_ok mem (fresh [⟨WIRE_TYPE_FLOAT⟩]) (by decide) (by decide)

/-- Witness of C13: the scenario of the specification, a fresh encoder over the
schema `[FLOAT]`. -/
theorem C13_witness :
    (fresh [⟨WIRE_TYPE_FLOAT⟩]).m_currentColumn < (fresh [⟨WIRE_TYPE_FLOAT⟩]).m_columns.length ∧
    (fresh [⟨WIRE_TYPE_FLOAT⟩]).addNull (fun _ => none) errOk =
      .done ((fresh [⟨WIRE_TYPE_FLOAT⟩]).appended
        [0xFF, 0xEF, 0xFF, 0xFF, 0xFF, 0xFF, 0xFF, 0xFF], errOk) :=
  ⟨by decide,
    (C13_addNull_on_float_writes_the_most_negative_double (fun _ => none)
      (fresh [⟨WIRE_TYPE_FLOAT⟩]) (by decide) rfl).1⟩

/-- C15: with the cursor inside the schema, `addNull` on a fixed-width column is
the typed operation applied to the sentinel, whatever `err` holds on entry: the
two calls end the same way, with the same cursor, sink and error.
`addInt64(INT64_MIN)` on BIGINT, `addInt32(INT32_MIN)` on INTEGER,
`addInt16(INT16_MIN)` on SMALLINT, `addInt8(INT8_MIN)` on TINYINT and
`addDouble(-1.7976931348623157E+308)` on FLOAT. So a row holding NULL and the
row holding the sentinel value in its place, two different rows, leave the same
sink: the encoding is not injective on fixed-width columns. -/
theorem C15_addNull_is_the_typed_add_of_the_sentinel (mem : PastEnd) (b : RowBuilder)
    (err : errType) (hc : b.m_currentColumn < b.m_columns.length) :
    (b.m_columns[b.m_currentColumn].m_type = WIRE_TYPE_BIGINT →
      b.addNull mem err = b.addInt64 mem err INT64_MIN) ∧
    (b.m_columns[b.m_currentColumn].m_type = WIRE_TYPE_INTEGER →
      b.addNull mem err = b.addInt32 mem err INT32_MIN) ∧
    (b.m_columns[b.m_currentColumn].m_type = WIRE_TYPE_SMALLINT →
      b.addNull mem err = b.addInt16 mem err INT16_MIN) ∧
    (b.m_columns[b.m_currentColumn].m_type = WIRE_TYPE_TINYINT →
      b.addNull mem err = b.addInt8 mem err INT8_MIN) ∧
    (b.m_columns[b.m_currentColumn].m_type = WIRE_TYPE_FLOAT →
      b.addNull mem err = b.addDouble mem err NULL_DOUBLE) ∧
    (INT64_MIN = -(2 : Int) ^ 63 ∧ INT32_MIN = -(2 : Int) ^ 31 ∧ INT16_MIN = -(2 : Int) ^ 15 ∧
      INT8_MIN = -(2 : Int) ^ 7) ∧
    (encodeRow mem (fresh [⟨WIRE_TYPE_BIGINT⟩]) [none] =
        encodeRow mem (fresh [⟨WIRE_TYPE_BIGINT⟩]) [some (.int64 INT64_MIN)] ∧
      encodeRow mem (fresh [⟨WIRE_TYPE_INTEGER⟩]) [none] =
        encodeRow mem (fresh [⟨WIRE_TYPE_INTEGER⟩]) [some (.int32 INT32_MIN)] ∧
      encodeRow mem (fresh [⟨WIRE_TYPE_SMALLINT⟩]) [none] =
        encodeRow mem (fresh [⟨WIRE_TYPE_SMALLINT⟩]) [some (.int16 INT16_MIN)] ∧
      encodeRow mem (fresh [⟨WIRE_TYPE_TINYINT⟩]) [none] =
        encodeRow mem (fresh [⟨WIRE_TYPE_TINYINT⟩]) [some (.int8 INT8_MIN)] ∧
      encodeRow mem (fresh [⟨WIRE_TYPE_FLOAT⟩]) [none] =
        encodeRow mem (fresh [⟨WIRE_TYPE_FLOAT⟩]) [some (.double NULL_DOUBLE)]) ∧
    ([none] : List Cell) ≠ [some (.int64 INT64_MIN)] := by
  have hn : ¬ b.m_currentColumn > b.m_columns.length := by omega
  have key : ∀ t, b.m_columns[b.m_currentColumn].m_type = t →
      b.addNull mem err = (Outcome.done t).andThen fun t =>
        match t with
        | WIRE_TYPE_BIGINT => b.addInt64 mem err INT64_MIN
        | WIRE_TYPE_INTEGER => b.addInt32 mem err INT32_MIN
        | WIRE_TYPE_SMALLINT => b.addInt16 mem err INT16_MIN
        | WIRE_TYPE_TINYINT => b.addInt8 mem err INT8_MIN
        | WIRE_TYPE_FLOAT => b.addDouble mem err NULL_DOUBLE
        | WIRE_TYPE_STRING =>
          let r := (b.m_buffer.ensureRemaining 4).putInt32 err (-1)
          .done ({ b with m_buffer := r.1, m_currentColumn := b.m_currentColumn + 1 }, r.2)
        | WIRE_TYPE_VARBINARY =>
          let r := (b.m_buffer.ensureRemaining 4).putInt32 err (-1)
          .done ({ b with m_buffer := r.1, m_currentColumn := b.m_currentColumn + 1 }, r.2)
        | undefinedTag _ => .assertFailed := by
    intro t ht
    unfold addNull
    rw [if_neg hn, currentType_of_lt mem b hc, ht]
  refine ⟨fun ht => key _ ht, fun ht => key _ ht, fun ht => key _ ht, fun ht => key _ ht,
    fun ht => key _ ht, ⟨by decide, by decide, by decide, by decide⟩, ?_, by decide⟩
  refine ⟨?_, ?_, ?_, ?_, ?_⟩ <;>
  · rw [encodeRow_fresh mem _ _ (by decide) (by decide),
      encodeRow_fresh mem _ _ (by decide) (by decide)]
    rfl

/-- Witness of C15: `addNull` and `addInt64(INT64_MIN)` on a fresh encoder over
the schema `[BIGINT]`. -/
theorem C15_witness :
    (fresh [⟨WIRE_TYPE_BIGINT⟩]).m_currentColumn < (fresh [⟨WIRE_TYPE_BIGINT⟩]).m_columns.length ∧
    (fresh [⟨WIRE_TYPE_BIGINT⟩]).addNull (fun _ => none) errOk =
      (fresh [⟨WIRE_TYPE_BIGINT⟩]).addInt64 (fun _ => none) errOk INT64_MIN :=
  ⟨by decide,
    (C15_addNull_is_the_typed_add_of_the_sentinel (fun _ => none) (fresh [⟨WIRE_TYPE_BIGINT⟩])
      errOk (by decide)).1 rfl⟩

/-- C16: with the cursor inside the schema, `addNull` runs into the `default:`
branch `assert(false)` exactly when the column under the cursor carries a wire
type outside the seven column types; over a schema whose columns are all among
the seven it never does, whatever `err` holds on entry. A column with another
tag, such as 11, takes `addNull` there. -/
theorem C16_addNull_asserts_only_on_a_foreign_type (mem : PastEnd) (b : RowBuilder)
    (err : errType) (hc : b.m_currentColumn < b.m_columns.length) :
    (b.addNull mem err = .assertFailed ↔ ¬ b.m_columns[b.m_currentColumn].m_type.isColumnType) ∧
    ((∀ col ∈ b.m_columns, col.m_type.isColumnType) → b.addNull mem err ≠ .assertFailed) ∧
    (fresh [⟨undefinedTag 11⟩]).addNull mem err = .assertFailed := by
  have hn : ¬ b.m_currentColumn > b.m_columns.length := by omega
  have key : b.addNull mem err = .assertFailed ↔
      ¬ b.m_columns[b.m_currentColumn].m_type.isColumnType := by
    unfold addNull
    rw [if_neg hn, currentType_of_lt mem b hc]
    cases ht : b.m_columns[b.m_currentColumn].m_type with
    | WIRE_TYPE_TINYINT =>
      simpa [Outcome.andThen, WireType.isColumnType] using
        typedCall_run_ne_assertFailed mem b err (.addInt8 INT8_MIN)
    | WIRE_TYPE_SMALLINT =>
      simpa [Outcome.andThen, WireType.isColumnType] using
        typedCall_run_ne_assertFailed mem b err (.addInt16 INT16_MIN)
    | WIRE_TYPE_INTEGER =>
      simpa [Outcome.andThen, WireType.isColumnType] using
        typedCall_run_ne_assertFailed mem b err (.addInt32 INT32_MIN)
    | WIRE_TYPE_BIGINT =>
      simpa [Outcome.andThen, WireType.isColumnType] using
        typedCall_run_ne_assertFailed mem b err (.addInt64 INT64_MIN)
    | WIRE_TYPE_FLOAT =>
      simpa [Outcome.andThen, WireType.isColumnType] using
        typedCall_run_ne_assertFailed mem b err (.addDouble NULL_DOUBLE)
    | WIRE_TYPE_STRING => simp [Outcome.andThen, WireType.isColumnType]
    | WIRE_TYPE_VARBINARY => simp [Outcome.andThen, WireType.isColumnType]
    | undefinedTag tag => simp [Outcome.andThen, WireType.isColumnType]
  refine ⟨key, ?_, rfl⟩
  intro hall h
  exact key.mp h (hall _ (List.getElem_mem _))

/-- Witness of C16: `addNull` on a fresh encoder over the schema `[BIGINT]` does
not reach the assertion. -/
theorem C16_witness :
    (fresh [⟨WIRE_TYPE_BIGINT⟩]).m_currentColumn < (fresh [⟨WIRE_TYPE_BIGINT⟩]).m_columns.length ∧
    (∀ col ∈ (fresh [⟨WIRE_TYPE_BIGINT⟩]).m_columns, col.m_type.isColumnType) ∧
    (fresh [⟨WIRE_TYPE_BIGINT⟩]).addNull (fun _ => none) errOk ≠ .assertFailed :=
  ⟨by decide, by decide,
    (C16_addNull_asserts_only_on_a_foreign_type (fun _ => none) (fresh [⟨WIRE_TYPE_BIGINT⟩])
      errOk (by decide)).2.1 (by decide)⟩

/-- C17: a typed operation called while `err` already holds an error writes
nothing and does not move the cursor, also when its type is the type of the
column under the cursor, and `err` holds an error afterwards: `validateType`
never clears `err`, and every typed operation returns on `!isOk(err)` before it
touches the sink. With the cursor inside the schema the call returns the encoder
as it was, with `err` as it was when the types agree and ColumnMismatch when
they do not. With the cursor at or past the column count the call first reads
the column list out of range; once that read has come back the same holds. -/
theorem C17_errors_are_sticky_for_typed_operations (mem : PastEnd) (b : RowBuilder)
    (err : errType) (c : TypedCall) (herr : isOk err = false) :
    (c.run mem b err = .outOfRange ∨
      ∃ e : errType, c.run mem b err = .done (b, e) ∧ isOk e = false) ∧
    (∀ hc : b.m_currentColumn < b.m_columns.length,
      c.run mem b err =
        .done (b, if b.m_columns[b.m_currentColumn].m_type = c.wireType then err
                  else errColumnMismatchException)) ∧
    (∀ (type : WireType) (e : errType), b.validateType mem err type = .done e →
      isOk e = false) ∧
    (c.run mem b err = .outOfRange →
      b.m_columns.length ≤ b.m_currentColumn ∧ mem b.m_currentColumn = none) := by
  have hrun := typedCall_run_eq mem b err c
  refine ⟨?_, ?_, fun type e h => validateType_keeps_error mem b err type herr e h, ?_⟩
  · rcases validateType_done_or_outOfRange mem b err c.wireType with hv | ⟨e, hv⟩
    · rw [hv] at hrun
      exact Or.inl hrun
    · have he := validateType_keeps_error mem b err _ herr e hv
      rw [hv] at hrun
      simp only [Outcome.andThen, he, Bool.false_eq_true, if_false] at hrun
      exact Or.inr ⟨e, hrun, he⟩
  · intro hc
    rw [hrun, validateType_of_lt mem b _ _ hc]
    by_cases ht : b.m_columns[b.m_currentColumn].m_type = c.wireType
    · simp [Outcome.andThen, ht, herr]
    · simp [Outcome.andThen, ht, isOk]
  · intro h
    rw [hrun] at h
    rcases validateType_done_or_outOfRange mem b err c.wireType with hv | ⟨e, hv⟩
    · exact validateType_outOfRange mem b err _ hv
    · have he := validateType_keeps_error mem b err _ herr e hv
      rw [hv] at h
      simp only [Outcome.andThen, he, Bool.false_eq_true, if_false] at h
      exact absurd h (fun hne => Outcome.noConfusion hne)

/-- Witness of C17: `addInt64(5)` on a fresh encoder over the schema `[BIGINT]`
with ColumnMismatch already in `err`. -/
theorem C17_witness :
    isOk errColumnMismatchException = false ∧
    TypedCall.run (fun _ => none) (fresh [⟨WIRE_TYPE_BIGINT⟩]) errColumnMismatchException
        (.addInt64 5) =
      .done (fresh [⟨WIRE_TYPE_BIGINT⟩], errColumnMismatchException) :=
  ⟨rfl,
    (C17_errors_are_sticky_for_typed_operations (fun _ => none) (fresh [⟨WIRE_TYPE_BIGINT⟩])
      errColumnMismatchException (.addInt64 5) rfl).2.1 (by decide)⟩

end voltdb
